import Mathlib

/-!
Verification development for the evil-remote-ssh-agent VS Code extension.

The JavaScript source is shallowly embedded as pure Lean functions over
explicit state:
* `StateData` and its operations model the `TerminalStateManager` class of
  `src/command/executor.js` (persisted file `.evil-sshagent-terminals.json`).
* `LogEntry` and the log operations model the audit log of
  `src/terminal/terminal-manager.js` (`logCommandExecution`,
  `updateCommandResult`).
* `Sys` and the operations on it model the `TerminalManager` class together
  with the module-level reconciliation logic of the extension entry point
  (`ensureTerminalsExist`, `isTerminalAliveInVSCode`, ...).

JavaScript maps and objects are modelled as insertion-ordered association
lists, timestamps as abstract `Nat` clock values, and the VS Code terminal
environment as a list of named handles.
-/

namespace EvilAgent

/-! ### Insertion-ordered association lists

JavaScript `Map` and plain objects preserve insertion order; `set`/property
assignment overwrites in place, `delete` removes the entry. -/

/-- Lookup by key (JS `map.get(k)` / `obj[k]`). -/
def alGet {α : Type} (k : String) : List (String × α) → Option α
  | [] => none
  | (k', v) :: rest => if k' = k then some v else alGet k rest

/-- Insert or overwrite in place (JS `map.set(k, v)` / `obj[k] = v`). -/
def alInsert {α : Type} (k : String) (v : α) : List (String × α) → List (String × α)
  | [] => [(k, v)]
  | (k', v') :: rest => if k' = k then (k, v) :: rest else (k', v') :: alInsert k v rest

/-- Remove an entry (JS `delete obj[k]`). -/
def alRemove {α : Type} (k : String) : List (String × α) → List (String × α)
  | [] => []
  | (k', v') :: rest => if k' = k then rest else (k', v') :: alRemove k rest

theorem alGet_alInsert_self {α : Type} (k : String) (v : α) :
    ∀ l : List (String × α), alGet k (alInsert k v l) = some v
  | [] => by simp [alGet, alInsert]
  | (a, b) :: rest => by
    by_cases ha : a = k
    · rw [alInsert, if_pos ha, alGet, if_pos rfl]
    · rw [alInsert, if_neg ha, alGet, if_neg ha]
      exact alGet_alInsert_self k v rest

theorem alGet_alInsert_ne {α : Type} {k k' : String} (h : k ≠ k') (v : α) :
    ∀ l : List (String × α), alGet k' (alInsert k v l) = alGet k' l
  | [] => by simp [alGet, alInsert, h]
  | (a, b) :: rest => by
    by_cases ha : a = k
    · rw [alInsert, if_pos ha, alGet, if_neg h, alGet, if_neg (ha ▸ h : a ≠ k')]
    · rw [alInsert, if_neg ha]
      by_cases ha' : a = k'
      · rw [alGet, if_pos ha', alGet, if_pos ha']
      · rw [alGet, if_neg ha', alGet, if_neg ha']
        exact alGet_alInsert_ne h v rest

theorem mem_alInsert {α : Type} {k : String} {v : α} :
    ∀ {l : List (String × α)} {p : String × α}, p ∈ alInsert k v l → p = (k, v) ∨ p ∈ l
  | [], p, h => Or.inl (by simpa [alInsert] using h)
  | (a, b) :: rest, p, h => by
    by_cases ha : a = k
    · rw [alInsert, if_pos ha] at h
      rcases List.mem_cons.mp h with h | h
      · exact Or.inl h
      · exact Or.inr (List.mem_cons_of_mem _ h)
    · rw [alInsert, if_neg ha] at h
      rcases List.mem_cons.mp h with h | h
      · exact Or.inr (List.mem_cons.mpr (Or.inl h))
      · rcases mem_alInsert h with h' | h'
        · exact Or.inl h'
        · exact Or.inr (List.mem_cons_of_mem _ h')

theorem mem_alRemove {α : Type} {k : String} :
    ∀ {l : List (String × α)} {p : String × α}, p ∈ alRemove k l → p ∈ l
  | [], p, h => by simpa [alRemove] using h
  | (a, b) :: rest, p, h => by
    by_cases ha : a = k
    · rw [alRemove, if_pos ha] at h
      exact List.mem_cons_of_mem _ h
    · rw [alRemove, if_neg ha] at h
      rcases List.mem_cons.mp h with h | h
      · exact List.mem_cons.mpr (Or.inl h)
      · exact List.mem_cons_of_mem _ (mem_alRemove h)

theorem alGet_mem {α : Type} {k : String} {v : α} :
    ∀ {l : List (String × α)}, alGet k l = some v → (k, v) ∈ l
  | [], h => by simp [alGet] at h
  | (a, b) :: rest, h => by
    by_cases ha : a = k
    · rw [alGet, if_pos ha] at h
      injection h with h
      subst ha
      subst h
      exact List.mem_cons_self _ _
    · rw [alGet, if_neg ha] at h
      exact List.mem_cons_of_mem _ (alGet_mem h)

theorem alInsert_keys_of_mem {α : Type} {k : String} (v : α) :
    ∀ {l : List (String × α)}, (alGet k l).isSome →
      (alInsert k v l).map Prod.fst = l.map Prod.fst
  | [], h => by simp [alGet] at h
  | (a, b) :: rest, h => by
    by_cases ha : a = k
    · rw [alInsert, if_pos ha]
      simp [ha]
    · rw [alGet, if_neg ha] at h
      rw [alInsert, if_neg ha]
      simp [alInsert_keys_of_mem v h]

/-! ### Decimal rendering of numeric ids

The source constantly coerces numeric terminal ids to strings with
JavaScript `String(terminalId)`; `jsStringOfNat` models that decimal
rendering.  Injectivity is needed to know that ids minted by the monotonic
counter never collide as map keys. -/

/-- Little-endian decimal digits, with explicit structural fuel so that the
definition evaluates by kernel reduction (the value shrinks by a factor of
ten per step, so fuel equal to the value always suffices). -/
def natDigitsRevAux : Nat → Nat → List Nat
  | _, 0 => []
  | 0, _ + 1 => []
  | fuel + 1, n + 1 => (n + 1) % 10 :: natDigitsRevAux fuel ((n + 1) / 10)

/-- Little-endian decimal digits of a positive number (empty for 0). -/
def natDigitsRev (n : Nat) : List Nat := natDigitsRevAux n n

theorem natDigitsRevAux_fuel (n : Nat) : ∀ f₁ f₂, n ≤ f₁ → n ≤ f₂ →
    natDigitsRevAux f₁ n = natDigitsRevAux f₂ n := by
  induction n using Nat.strong_induction_on with
  | _ n ih =>
    match n with
    | 0 => intro f₁ f₂ _ _; cases f₁ <;> cases f₂ <;> rfl
    | m + 1 =>
      intro f₁ f₂ h₁ h₂
      match f₁, f₂ with
      | 0, _ => exact absurd h₁ (by omega)
      | _ + 1, 0 => exact absurd h₂ (by omega)
      | g₁ + 1, g₂ + 1 =>
        have hd : (m + 1) / 10 < m + 1 := Nat.div_lt_self (Nat.succ_pos m) (by norm_num)
        show (m + 1) % 10 :: natDigitsRevAux g₁ ((m + 1) / 10)
            = (m + 1) % 10 :: natDigitsRevAux g₂ ((m + 1) / 10)
        rw [ih ((m + 1) / 10) hd g₁ g₂ (by omega) (by omega)]

theorem natDigitsRev_succ (m : Nat) :
    natDigitsRev (m + 1) = (m + 1) % 10 :: natDigitsRev ((m + 1) / 10) := by
  have hd : (m + 1) / 10 < m + 1 := Nat.div_lt_self (Nat.succ_pos m) (by norm_num)
  show (m + 1) % 10 :: natDigitsRevAux m ((m + 1) / 10)
      = (m + 1) % 10 :: natDigitsRevAux ((m + 1) / 10) ((m + 1) / 10)
  rw [natDigitsRevAux_fuel ((m + 1) / 10) m ((m + 1) / 10) (by omega) (Nat.le_refl _)]

/-- The character for a single decimal digit. -/
def decDigitChar (d : Nat) : Char := Char.ofNat (48 + d)

/-- JavaScript `String(n)` for a natural number. -/
def jsStringOfNat (n : Nat) : String :=
  if n = 0 then "0" else ⟨(natDigitsRev n).reverse.map decDigitChar⟩

/-- Value of a little-endian digit list (left inverse of `natDigitsRev`). -/
def ofDigitsRev : List Nat → Nat
  | [] => 0
  | d :: ds => d + 10 * ofDigitsRev ds

theorem ofDigitsRev_natDigitsRev (n : Nat) : ofDigitsRev (natDigitsRev n) = n := by
  induction n using Nat.strong_induction_on with
  | _ n ih =>
    match n with
    | 0 => simp [natDigitsRev, natDigitsRevAux, ofDigitsRev]
    | m + 1 =>
      rw [natDigitsRev_succ, ofDigitsRev,
        ih ((m + 1) / 10) (Nat.div_lt_self (Nat.succ_pos m) (by norm_num)),
        Nat.mod_add_div]

theorem natDigitsRev_lt_ten (n : Nat) : ∀ d ∈ natDigitsRev n, d < 10 := by
  induction n using Nat.strong_induction_on with
  | _ n ih =>
    match n with
    | 0 => simp [natDigitsRev, natDigitsRevAux]
    | m + 1 =>
      intro d hd
      rw [natDigitsRev_succ] at hd
      rcases List.mem_cons.mp hd with h | h
      · exact h ▸ Nat.mod_lt _ (by norm_num)
      · exact ih ((m + 1) / 10) (Nat.div_lt_self (Nat.succ_pos m) (by norm_num)) d h

theorem decDigitChar_inj {d e : Nat} (hd : d < 10) (he : e < 10)
    (h : decDigitChar d = decDigitChar e) : d = e := by
  interval_cases d <;> interval_cases e <;> first | rfl | (exfalso; exact absurd h (by decide))

theorem map_decDigitChar_inj : ∀ {l₁ l₂ : List Nat}, (∀ d ∈ l₁, d < 10) → (∀ d ∈ l₂, d < 10) →
    l₁.map decDigitChar = l₂.map decDigitChar → l₁ = l₂
  | [], [], _, _, _ => rfl
  | [], _ :: _, _, _, h => by simp at h
  | _ :: _, [], _, _, h => by simp at h
  | a :: l₁, b :: l₂, h₁, h₂, h => by
    simp only [List.map_cons, List.cons.injEq] at h
    have ha := decDigitChar_inj (h₁ a (List.mem_cons_self _ _)) (h₂ b (List.mem_cons_self _ _)) h.1
    have hrest := map_decDigitChar_inj (fun d hd => h₁ d (List.mem_cons_of_mem _ hd))
      (fun d hd => h₂ d (List.mem_cons_of_mem _ hd)) h.2
    rw [ha, hrest]

theorem natDigitsRev_ne_nil {n : Nat} (h : n ≠ 0) : natDigitsRev n ≠ [] := by
  match n with
  | 0 => exact absurd rfl h
  | m + 1 => rw [natDigitsRev_succ]; exact List.cons_ne_nil _ _

theorem jsStringOfNat_inj : Function.Injective jsStringOfNat := by
  intro m n h
  unfold jsStringOfNat at h
  by_cases hm : m = 0 <;> by_cases hn : n = 0
  · rw [hm, hn]
  · exfalso
    rw [if_pos hm, if_neg hn] at h
    have : ['0'] = (natDigitsRev n).reverse.map decDigitChar := congrArg String.data h
    have h0 : natDigitsRev n = [0] := by
      have := @map_decDigitChar_inj [0] (natDigitsRev n).reverse
        (by simp) (by intro d hd; exact natDigitsRev_lt_ten n d (List.mem_reverse.mp hd))
        (by simpa [decDigitChar] using this)
      have hrev := congrArg List.reverse this.symm
      simpa using hrev
    have := ofDigitsRev_natDigitsRev n
    rw [h0] at this
    simp [ofDigitsRev] at this
    exact hn this.symm
  · exfalso
    rw [if_neg hm, if_pos hn] at h
    have : (natDigitsRev m).reverse.map decDigitChar = ['0'] := congrArg String.data h
    have h0 : natDigitsRev m = [0] := by
      have := @map_decDigitChar_inj (natDigitsRev m).reverse [0]
        (by intro d hd; exact natDigitsRev_lt_ten m d (List.mem_reverse.mp hd)) (by simp)
        (by simpa [decDigitChar] using this)
      have hrev := congrArg List.reverse this
      simpa using hrev
    have := ofDigitsRev_natDigitsRev m
    rw [h0] at this
    simp [ofDigitsRev] at this
    exact hm this.symm
  · rw [if_neg hm, if_neg hn] at h
    have hdata := congrArg String.data h
    simp only at hdata
    have := map_decDigitChar_inj
      (by intro d hd; exact natDigitsRev_lt_ten m d (List.mem_reverse.mp hd))
      (by intro d hd; exact natDigitsRev_lt_ten n d (List.mem_reverse.mp hd)) hdata
    have hdig : natDigitsRev m = natDigitsRev n := by
      have := congrArg List.reverse this
      simpa using this
    have h1 := ofDigitsRev_natDigitsRev m
    rw [hdig, ofDigitsRev_natDigitsRev n] at h1
    exact h1.symm

theorem jsStringOfNat_ne_empty (n : Nat) : jsStringOfNat n ≠ "" := by
  unfold jsStringOfNat
  by_cases hn : n = 0
  · rw [if_pos hn]; decide
  · rw [if_neg hn]
    intro h
    have := congrArg String.data h
    simp only at this
    have h2 := congrArg List.length this
    simp only [List.length_map, List.length_reverse] at h2
    exact natDigitsRev_ne_nil hn (List.length_eq_zero.mp (by simpa using h2))

/-! ### The persisted state store (`TerminalStateManager`, executor.js) -/

/-- A persisted channel descriptor: one value of the `terminals` map in
`.evil-sshagent-terminals.json` as written by `upsertTerminal` (the spread of
the caller's `terminalInfo` plus the overwritten `id` and `lastUpdated`). -/
structure ChannelDesc where
  id : String
  ttype : String
  createdTime : Nat
  lastActivity : Nat
  tname : String
  lastUpdated : Nat
deriving DecidableEq, Repr

/-- The caller-supplied `terminalInfo` argument of `upsertTerminal`: the
fields every call site passes (`type`, `createdTime`, `lastActivity`,
`name`); `id` and `lastUpdated` are overwritten by `upsertTerminal` itself. -/
structure TermInput where
  ttype : String
  createdTime : Nat
  lastActivity : Nat
  tname : String
deriving DecidableEq, Repr

/-- A JavaScript value used as a terminal id: the code passes both the
numbers produced by `getNextTerminalId` and strings (map keys, HTTP
parameters). -/
inductive JVal where
  | num (n : Nat)
  | str (s : String)
deriving DecidableEq, Repr

/-- JavaScript `String(x)` as applied to terminal ids. -/
def jsString : JVal → String
  | .num n => jsStringOfNat n
  | .str s => s

/-- The in-memory `stateData` object of `TerminalStateManager`
(`{terminals, terminalIdCounter, lastUpdated}`; the top-level `lastUpdated`
stamp is elided since nothing reads it). -/
structure StateData where
  terminals : List (String × ChannelDesc)
  terminalIdCounter : Nat
deriving DecidableEq, Repr

/-- The constructor-initialised state (`{terminals: {}, terminalIdCounter: 1}`). -/
def freshStateData : StateData := { terminals := [], terminalIdCounter := 1 }

/-- Observation of the persisted file made by `loadState`:
`none` — the file does not exist; `some none` — the file exists but reading
or parsing it throws; `some (some d)` — the file parses to `d`.
`loadState` returns the resulting in-memory state together with a flag that
records whether it wrote the file (`saveState`) during the load: on a missing
file it saves the constructor-fresh state; in the catch branch it only resets
the in-memory state and does not save. -/
def loadState (file : Option (Option StateData)) : StateData × Bool :=
  match file with
  | none => (freshStateData, true)
  | some none => (freshStateData, false)
  | some (some d) => (d, false)

/-- Model of `upsertTerminal(terminalId, terminalInfo)`: coerces the id with
`String(...)`, spreads `terminalInfo`, overwrites `id` with the coerced key
and stamps `lastUpdated`, then stores under the coerced key. -/
def upsertTerminal (sd : StateData) (tid : JVal) (info : TermInput) (now : Nat) : StateData :=
  let k := jsString tid
  { sd with
    terminals := alInsert k
      { id := k, ttype := info.ttype, createdTime := info.createdTime,
        lastActivity := info.lastActivity, tname := info.tname, lastUpdated := now }
      sd.terminals }

/-- Model of `removeTerminal(terminalId)`: returns `false` without touching the state
when the id is absent, otherwise deletes the entry. -/
def removeTerminal (sd : StateData) (tid : JVal) : Bool × StateData :=
  let k := jsString tid
  match alGet k sd.terminals with
  | none => (false, sd)
  | some _ => (true, { sd with terminals := alRemove k sd.terminals })

/-- Model of `clearAllTerminals()`: empties the terminal map. -/
def clearAllTerminals (sd : StateData) : StateData := { sd with terminals := [] }

/-- Model of `getNextTerminalId()`: returns the current counter and increments it. -/
def getNextTerminalId (sd : StateData) : Nat × StateData :=
  (sd.terminalIdCounter, { sd with terminalIdCounter := sd.terminalIdCounter + 1 })

/-- Runs `M` sequential `getNextTerminalId` calls, collecting the returned ids. -/
def runNextIds : Nat → StateData → List Nat
  | 0, _ => []
  | m + 1, sd =>
    let r := getNextTerminalId sd
    r.1 :: runNextIds m r.2

/-- Every stored descriptor's `id` field equals its map key. -/
def KeyedOk (sd : StateData) : Prop := ∀ p ∈ sd.terminals, (Prod.snd p).id = p.1

instance (sd : StateData) : Decidable (KeyedOk sd) := by
  unfold KeyedOk; infer_instance

theorem runNextIds_eq_range' (m : Nat) (sd : StateData) :
    runNextIds m sd = List.range' sd.terminalIdCounter m := by
  induction m generalizing sd with
  | zero => simp [runNextIds]
  | succ k ih =>
    rw [runNextIds, ih]
    rfl

/-! ### Claim C4 — `loadState` fallback behaviour -/

/-- Claim C4, counterexample: when the persisted file exists but is
unparseable, `loadState` falls back to the fresh state but does **not**
immediately persist it (the catch branch never calls `saveState`), contrary
to the claim that any absence/parse/I-O failure is followed by an immediate
persist. -/
theorem loadState_unparseable_not_persisted :
    loadState (some none) = (freshStateData, false) ∧ freshStateData.terminals = [] :=
  ⟨rfl, rfl⟩

/-- Claim C4 (amended): `loadState` never fails: its result is the fresh
empty state (empty channel map, counter reset to 1) unless the file parses,
in which case it is the parsed state; and it writes the file during the load
exactly when the file was absent (on parse or read failure the fresh state
stays in memory only). -/
theorem loadState_total_fallback (file : Option (Option StateData)) :
    ((loadState file).1 = freshStateData ∨ ∃ d, file = some (some d) ∧ (loadState file).1 = d)
    ∧ ((loadState file).2 = true ↔ file = none) := by
  match file with
  | none => exact ⟨Or.inl rfl, by simp [loadState]⟩
  | some none => exact ⟨Or.inl rfl, by simp [loadState]⟩
  | some (some d) => exact ⟨Or.inr ⟨d, rfl, rfl⟩, by simp [loadState]⟩

/-- Witness for the amended C4 at the concrete file observations. -/
theorem loadState_total_fallback_witness :
    ((loadState none).1 = freshStateData
      ∨ ∃ d, (none : Option (Option StateData)) = some (some d) ∧ (loadState none).1 = d)
    ∧ ((loadState none).2 = true ↔ (none : Option (Option StateData)) = none) :=
  loadState_total_fallback none

/-! ### Claim C7 — counter monotonicity -/

/-- Claim C7: `M ≥ 1` sequential `nextId()` calls return `M` strictly
increasing, pairwise distinct integers, and each single call returns the
current counter value and leaves the counter incremented by one. -/
theorem nextId_monotonic (M : Nat) (sd : StateData) (hM : 1 ≤ M) :
    (runNextIds M sd).length = M
    ∧ (runNextIds M sd).Pairwise (· < ·)
    ∧ (runNextIds M sd).Nodup
    ∧ (∀ t : StateData, (getNextTerminalId t).1 = t.terminalIdCounter
        ∧ (getNextTerminalId t).2.terminalIdCounter = t.terminalIdCounter + 1) := by
  rw [runNextIds_eq_range' M sd]
  refine ⟨List.length_range' _ _ _, ?_, ?_, fun t => ⟨rfl, rfl⟩⟩
  · exact List.pairwise_lt_range' _ _ 1 (Nat.le_refl 1)
  · exact List.nodup_range' _ _ 1 (Nat.le_refl 1)

/-- Witness for C7 at `M = 3` from the fresh counter. -/
theorem nextId_monotonic_witness :
    (runNextIds 3 freshStateData).length = 3
    ∧ (runNextIds 3 freshStateData).Pairwise (· < ·)
    ∧ (runNextIds 3 freshStateData).Nodup
    ∧ (∀ t : StateData, (getNextTerminalId t).1 = t.terminalIdCounter
        ∧ (getNextTerminalId t).2.terminalIdCounter = t.terminalIdCounter + 1) :=
  nextId_monotonic 3 freshStateData (by norm_num)

/-! ### Claim C10 — key/id invariant of the persisted map -/

/-- Claim C10: `upsertTerminal`, `removeTerminal` and `clearAllTerminals`
preserve the invariant that every stored descriptor's `id` equals its map
key; moreover `upsertTerminal` keys the entry by the string coercion of the
given id, overwrites the stored `id` field with that same string, and stamps
`lastUpdated` with the current clock. -/
theorem stateStore_key_invariant (sd : StateData) (tid : JVal) (info : TermInput) (now : Nat)
    (h : KeyedOk sd) :
    KeyedOk (upsertTerminal sd tid info now)
    ∧ KeyedOk (removeTerminal sd tid).2
    ∧ KeyedOk (clearAllTerminals sd)
    ∧ alGet (jsString tid) (upsertTerminal sd tid info now).terminals =
        some { id := jsString tid, ttype := info.ttype, createdTime := info.createdTime,
               lastActivity := info.lastActivity, tname := info.tname, lastUpdated := now } := by
  refine ⟨?_, ?_, ?_, alGet_alInsert_self ..⟩
  · intro p hp
    rcases mem_alInsert hp with h' | h'
    · rw [h']
    · exact h p h'
  · have hsplit : (removeTerminal sd tid).2.terminals = sd.terminals
        ∨ (removeTerminal sd tid).2.terminals = alRemove (jsString tid) sd.terminals := by
      unfold removeTerminal
      cases hx : alGet (jsString tid) sd.terminals <;> simp [hx]
    intro p hp
    rcases hsplit with h' | h'
    · rw [h'] at hp; exact h p hp
    · rw [h'] at hp; exact h p (mem_alRemove hp)
  · intro p hp
    simp [clearAllTerminals] at hp

/-- Witness for C10 at a concrete store. -/
theorem stateStore_key_invariant_witness :
    KeyedOk freshStateData
    ∧ (KeyedOk (upsertTerminal freshStateData (.num 5)
          { ttype := "mouse", createdTime := 0, lastActivity := 0, tname := "T" } 7)
       ∧ KeyedOk (removeTerminal freshStateData (.num 5)).2
       ∧ KeyedOk (clearAllTerminals freshStateData)
       ∧ alGet (jsString (.num 5)) (upsertTerminal freshStateData (.num 5)
            { ttype := "mouse", createdTime := 0, lastActivity := 0, tname := "T" } 7).terminals =
          some { id := jsString (.num 5), ttype := "mouse", createdTime := 0,
                 lastActivity := 0, tname := "T", lastUpdated := 7 }) :=
  ⟨by decide, stateStore_key_invariant freshStateData (.num 5)
    { ttype := "mouse", createdTime := 0, lastActivity := 0, tname := "T" } 7 (by decide)⟩

/-! ### The command audit log (terminal-manager.js) -/

/-- One entry of `.evil-sshagent-command-log.json`, as pushed by
`logCommandExecution`: `{id, timestamp, terminalId, terminalType, command,
outputFile, result, status: 'executed'}`. -/
structure LogEntry where
  lid : Nat
  tstamp : Nat
  terminalId : String
  terminalType : String
  command : String
  outputFile : Option String
  result : Option String
  status : String
deriving DecidableEq, Repr

/-- Model of `logCommandExecution(terminalId, terminalType, command, outputFile,
result)`: reads the log, pushes one new entry with `id = length + 1` and
`status: 'executed'`, and rewrites the file. -/
def logCommandExecution (log : List LogEntry) (terminalId terminalType command : String)
    (outputFile : Option String) (result : Option String) (now : Nat) : List LogEntry :=
  log ++ [{ lid := log.length + 1, tstamp := now, terminalId := terminalId,
            terminalType := terminalType, command := command, outputFile := outputFile,
            result := result, status := "executed" }]

/-- JavaScript falsiness of a nullable string field (`!x`): `null` and the
empty string are falsy. -/
def strFalsy : Option String → Bool
  | none => true
  | some s => s = ""

/-- The condition of the scan loop in `updateCommandResult`:
`logData[i].terminalId === terminalId && logData[i].command === command &&
!logData[i].result`. -/
def entryMatches (terminalId command : String) (e : LogEntry) : Bool :=
  e.terminalId == terminalId && e.command == command && strFalsy e.result

/-- The backwards scan of `updateCommandResult` (`for i = length-1 down to 0
... break`), expressed on the reversed list: set the first matching entry and
stop. -/
def updRev (terminalId command result : String) : List LogEntry → List LogEntry
  | [] => []
  | e :: rest =>
    if entryMatches terminalId command e then { e with result := some result } :: rest
    else e :: updRev terminalId command result rest

/-- Model of `updateCommandResult(terminalId, command, result)`: find the latest entry
matching terminal and command whose `result` is still falsy, set its result,
rewrite the file. -/
def updateCommandResult (log : List LogEntry) (terminalId command result : String) :
    List LogEntry :=
  (updRev terminalId command result log.reverse).reverse

theorem updRev_spec (terminalId command result : String) :
    ∀ l : List LogEntry,
      ((∀ e ∈ l, entryMatches terminalId command e = false)
        ∧ updRev terminalId command result l = l)
      ∨ (∃ pre mid suf, l = pre ++ mid :: suf
          ∧ entryMatches terminalId command mid = true
          ∧ (∀ x ∈ pre, entryMatches terminalId command x = false)
          ∧ updRev terminalId command result l =
              pre ++ { mid with result := some result } :: suf)
  | [] => Or.inl ⟨by simp, rfl⟩
  | e :: rest => by
    by_cases he : entryMatches terminalId command e
    · refine Or.inr ⟨[], e, rest, by simp, he, by simp, ?_⟩
      rw [updRev, if_pos he]
      simp
    · rcases updRev_spec terminalId command result rest with ⟨hall, heq⟩ | ⟨pre, mid, suf, hl, hm, hpre, heq⟩
      · refine Or.inl ⟨?_, ?_⟩
        · intro x hx
          rcases List.mem_cons.mp hx with hx | hx
          · exact hx ▸ (Bool.not_eq_true _).mp he
          · exact hall x hx
        · rw [updRev, if_neg he, heq]
      · refine Or.inr ⟨e :: pre, mid, suf, by rw [hl]; rfl, hm, ?_, ?_⟩
        · intro x hx
          rcases List.mem_cons.mp hx with hx | hx
          · exact hx ▸ (Bool.not_eq_true _).mp he
          · exact hpre x hx
        · rw [updRev, if_neg he, heq]
          rfl

theorem updRev_length (terminalId command result : String) :
    ∀ l : List LogEntry, (updRev terminalId command result l).length = l.length
  | [] => rfl
  | e :: rest => by
    by_cases he : entryMatches terminalId command e
    · rw [updRev, if_pos he]
      simp
    · rw [updRev, if_neg he]
      simp [updRev_length terminalId command result rest]

/-! ### Claim C6 — audit-log result update -/

/-- A log entry used in the C6 counterexample whose result is still `null`. -/
def c6nullEntry : LogEntry :=
  { lid := 1, tstamp := 0, terminalId := "1", terminalType := "mouse", command := "whoami",
    outputFile := some "/tmp/evil_sshagent_output_1.txt", result := none, status := "executed" }

/-- A later log entry for the same channel and command whose result is the
empty string (a dispatch whose output file existed but was empty). -/
def c6emptyEntry : LogEntry :=
  { lid := 2, tstamp := 1, terminalId := "1", terminalType := "mouse", command := "whoami",
    outputFile := some "/tmp/evil_sshagent_output_2.txt", result := some "", status := "executed" }

/-- Claim C6, counterexample: the scan condition is JavaScript falsiness
(`!result`), not `result === null`.  On a log holding a `null`-result entry
followed by an empty-string-result entry for the same channel and command,
`updateCommandResult` mutates the empty-string entry, not the last entry
whose result is still null — the only null-result entry is left unchanged. -/
theorem updateCommandResult_empty_string_counterexample :
    c6nullEntry.result = none
    ∧ c6emptyEntry.result = some ""
    ∧ updateCommandResult [c6nullEntry, c6emptyEntry] "1" "whoami" "root" =
        [c6nullEntry, { c6emptyEntry with result := some "root" }] :=
  ⟨rfl, rfl, rfl⟩

/-- Claim C6 (amended): for every audit-log state and every
(channelId, command, result) triple, `updateCommandResult` keeps the total
entry count unchanged, and either no entry matches channel + command with a
still-unset (`null` or empty-string, i.e. falsy) result and the log is
returned unchanged, or the log splits around the **last** such matching
entry, only that entry has its result set, and all other entries are kept
unchanged in place. -/
theorem updateCommandResult_spec (log : List LogEntry) (terminalId command result : String) :
    (updateCommandResult log terminalId command result).length = log.length
    ∧ (((∀ e ∈ log, entryMatches terminalId command e = false)
          ∧ updateCommandResult log terminalId command result = log)
        ∨ (∃ pre mid suf, log = pre ++ mid :: suf
            ∧ entryMatches terminalId command mid = true
            ∧ (∀ x ∈ suf, entryMatches terminalId command x = false)
            ∧ updateCommandResult log terminalId command result =
                pre ++ { mid with result := some result } :: suf)) := by
  constructor
  · unfold updateCommandResult
    rw [List.length_reverse, updRev_length, List.length_reverse]
  · rcases updRev_spec terminalId command result log.reverse with ⟨hall, heq⟩ |
      ⟨pre, mid, suf, hl, hm, hpre, heq⟩
    · refine Or.inl ⟨?_, ?_⟩
      · intro e he
        exact hall e (List.mem_reverse.mpr he)
      · unfold updateCommandResult
        rw [heq, List.reverse_reverse]
    · refine Or.inr ⟨suf.reverse, mid, pre.reverse, ?_, hm, ?_, ?_⟩
      · have := congrArg List.reverse hl
        rw [List.reverse_reverse] at this
        rw [this]
        simp
      · intro x hx
        exact hpre x (List.mem_reverse.mp hx)
      · unfold updateCommandResult
        rw [heq]
        simp

/-- Witness for the amended C6 at a concrete log. -/
theorem updateCommandResult_spec_witness :
    (updateCommandResult [c6nullEntry] "1" "whoami" "root").length = [c6nullEntry].length :=
  (updateCommandResult_spec [c6nullEntry] "1" "whoami" "root").1

/-! ### The whole-system state

`Sys` combines the VS Code environment (`vscode.window.terminals`), the
`TerminalManager` with its in-memory `managedTerminals` registry, the
persisted `StateData`, the audit log, and the extension's module-level
variables (`mouseTerminalId`, `catTerminalId`, `terminalsInitialized`).
`reveals` records, in order, the handle of every terminal on which `show()`
is called; `sends` records every `sendText`/`sendSequence`.  `now` is an
abstract clock used for timestamps and output-file names. -/

/-- A terminal of the host environment: an identity (handle) plus the name
the environment reports for it. -/
structure VTerm where
  handle : Nat
  vname : String
deriving DecidableEq, Repr

/-- A value of the in-memory `managedTerminals` map: the captured terminal
reference plus the bookkeeping fields (`type`, `createdTime`, `lastActivity`,
`name`). -/
structure MTermInfo where
  handle : Nat
  ttype : String
  createdTime : Nat
  lastActivity : Nat
  tname : String
deriving DecidableEq, Repr

structure Sys where
  vsTerminals : List VTerm
  nextHandle : Nat
  managed : List (String × MTermInfo)
  state : StateData
  commandLog : List LogEntry
  mouseTerminalId : Option String
  catTerminalId : Option String
  terminalsInitialized : Bool
  reveals : List Nat
  sends : List (Nat × String)
  now : Nat
deriving DecidableEq, Repr

/-- The name the environment gives a freshly created terminal (the default
shell title); it does not contain the `MOUSE`/`CAT` markers that
`findExistingTerminalInVSCode` scans for. -/
def defaultShellName : String := "bash"

/-- The welcome line `createRemoteTerminal` sends when `sendWelcome` is set. -/
def welcomeRemote (terminalId : Nat) (ty : String) : String :=
  "echo \x27Remote Terminal [ID: " ++ jsStringOfNat terminalId ++ ", Type: " ++ ty
    ++ "] Ready\x27\n"

/-- Model of `createRemoteTerminal(type, sendWelcome)` (terminal-manager.js): mint the
next id, run `workbench.action.terminal.newLocal` (the environment appends a
new terminal), take `terminals[terminals.length - 1]` as the new handle,
leave it hidden when `type === 'mouse'` and `show()` it otherwise, register
it in `managedTerminals` under `String(terminalId)` and persist a descriptor. -/
def createRemoteTerminal (s : Sys) (ty : String) (sendWelcome : Bool) : Nat × Sys :=
  let r := getNextTerminalId s.state
  let terminalId := r.1
  let h := s.nextHandle
  let info : MTermInfo :=
    { handle := h, ttype := ty, createdTime := s.now, lastActivity := s.now,
      tname := "REMOTE TERMINAL (" ++ ty.toUpper ++ ")" }
  (terminalId,
    { s with
      vsTerminals := s.vsTerminals ++ [{ handle := h, vname := defaultShellName }]
      nextHandle := h + 1
      reveals := if ty == "mouse" then s.reveals else s.reveals ++ [h]
      sends := if sendWelcome then s.sends ++ [(h, welcomeRemote terminalId ty)] else s.sends
      managed := alInsert (jsStringOfNat terminalId) info s.managed
      state := upsertTerminal r.2 (.num terminalId)
        { ttype := ty, createdTime := s.now, lastActivity := s.now, tname := info.tname }
        s.now })

/-- The welcome lines `createLocalTerminal` sends when `sendWelcome` is set. -/
def welcomeLocal (h : Nat) : List (Nat × String) :=
  [(h, "echo \x27=== 本地终端 (CAT) - 就绪 ===\x27"),
   (h, "echo \x27这是一个普通的本地终端\x27"),
   (h, "echo \x27所有系统正常运行\x27")]

/-- Model of `createLocalTerminal(type, sendWelcome)` (terminal-manager.js): mint the
next id, create a terminal via `createTerminal({hideFromUser: false})`,
always `show()` it, optionally send the welcome lines, register and persist. -/
def createLocalTerminal (s : Sys) (ty : String) (sendWelcome : Bool) : Nat × Sys :=
  let r := getNextTerminalId s.state
  let terminalId := r.1
  let h := s.nextHandle
  let info : MTermInfo :=
    { handle := h, ttype := ty, createdTime := s.now, lastActivity := s.now,
      tname := "LOCAL TERMINAL (" ++ ty.toUpper ++ ")" }
  (terminalId,
    { s with
      vsTerminals := s.vsTerminals ++ [{ handle := h, vname := defaultShellName }]
      nextHandle := h + 1
      reveals := s.reveals ++ [h]
      sends := if sendWelcome then s.sends ++ welcomeLocal h else s.sends
      managed := alInsert (jsStringOfNat terminalId) info s.managed
      state := upsertTerminal r.2 (.num terminalId)
        { ttype := ty, createdTime := s.now, lastActivity := s.now, tname := info.tname }
        s.now })

/-! ### Command dispatch (`sendCommandToTerminal`, terminal-manager.js) -/

/-- The typed failures `sendCommandToTerminal` throws before touching any
state: no mouse terminal registered (`Mouse terminal not found...`) or an
explicit id that is not in the registry (`Terminal not found: ...`). -/
inductive DispatchError where
  | mouseNotFound
  | terminalNotFound (terminalId : String)
deriving DecidableEq, Repr

/-- The object `sendCommandToTerminal` resolves with:
`{stdout, stderr, exitCode, outputFile}`. -/
structure DispatchResult where
  stdout : String
  stderr : String
  exitCode : Nat
  outputFile : Option String
deriving DecidableEq, Repr

/-- JavaScript falsiness of the `terminalId` argument (`!terminalId`):
`null`/`undefined` are modelled as `none`; the empty string is also falsy. -/
def idFalsy : Option String → Bool
  | none => true
  | some st => st == ""

/-- The fallback scan `for (const [id, info] of this.managedTerminals) if
(info.type === 'mouse') ...`: the first mouse-typed entry in insertion
order. -/
def findMouseId (managed : List (String × MTermInfo)) : Option String :=
  (managed.find? (fun p => p.2.ttype == "mouse")).map Prod.fst

/-- The unique output file name `/tmp/evil_sshagent_output_${Date.now()}.txt`. -/
def synthOutputFile (now : Nat) : String :=
  "/tmp/evil_sshagent_output_" ++ jsStringOfNat now ++ ".txt"

/-- The synthesized result message: it describes where the command was sent
and, when output is redirected, where the output will land; it is built from
the command, the resolved terminal id and the output file only. -/
def mkResultMessage (command terminalId : String) (outputFile : Option String) : String :=
  let base := "命令 \"" ++ command ++ "\" 已发送到终端 " ++ terminalId ++ " 执行"
  match outputFile with
  | none => base
  | some f =>
    base ++ "，输出将保存到 " ++ f
      ++ "。请在远程终端上使用 \x27cat " ++ f ++ "\x27 命令查看结果。"

/-- The target-resolution prefix of `sendCommandToTerminal`: a falsy id is
replaced by the first registered mouse terminal id (throwing if none); a
non-falsy id is passed through after `String(terminalId)` (identity on
strings). -/
def resolveTargetId (s : Sys) (terminalId0 : Option String) : Except DispatchError String :=
  if idFalsy terminalId0 then
    match findMouseId s.managed with
    | some m => .ok m
    | none => .error .mouseNotFound
  else .ok (terminalId0.getD "")

/-- The body of `sendCommandToTerminal` after resolution: look up the
registry entry (throwing `terminalNotFound` if absent), show non-mouse
targets, rewrite the command with redirection when requested, send it,
append one audit entry, stamp `lastActivity`, and resolve with the
synthesized result. -/
def dispatchTo (s : Sys) (terminalId : String) (command : String)
    (redirectOutput : Bool) : Except DispatchError (DispatchResult × Sys) :=
  match alGet terminalId s.managed with
  | none => .error (.terminalNotFound terminalId)
  | some info =>
    let outputFile := if redirectOutput then some (synthOutputFile s.now) else none
    let finalCommand :=
      match outputFile with
      | some f => command ++ " > " ++ f ++ " 2>&1"
      | none => command
    let res : DispatchResult :=
      { stdout := mkResultMessage command terminalId outputFile, stderr := "",
        exitCode := 0, outputFile := outputFile }
    .ok (res,
      { s with
        reveals := if info.ttype == "mouse" then s.reveals else s.reveals ++ [info.handle]
        sends := s.sends ++ [(info.handle, finalCommand)]
        commandLog := logCommandExecution s.commandLog terminalId info.ttype command
          outputFile none s.now
        managed := alInsert terminalId { info with lastActivity := s.now } s.managed
        state := upsertTerminal s.state (.str terminalId)
          { ttype := info.ttype, createdTime := info.createdTime, lastActivity := s.now,
            tname := info.tname } s.now })

/-- Model of `sendCommandToTerminal(terminalId, command, clearAfterExecution,
redirectOutput)` (terminal-manager.js): resolution followed by dispatch.
The delayed `clear`/read-back callbacks scheduled when `clearAfterExecution`
is set run asynchronously after the call returns and are not part of this
synchronous step, so the flag does not affect the returned value or the
immediate state. -/
def sendCommandToTerminal (s : Sys) (terminalId0 : Option String) (command : String)
    (clearAfterExecution redirectOutput : Bool) :
    Except DispatchError (DispatchResult × Sys) :=
  match resolveTargetId s terminalId0 with
  | .error e => .error e
  | .ok terminalId => dispatchTo s terminalId command redirectOutput

/-! ### Dispatch lemmas and claims C3, C5, C9 -/

theorem dispatchTo_of_get (s : Sys) (terminalId command : String) (ro : Bool)
    (info : MTermInfo) (hget : alGet terminalId s.managed = some info) :
    dispatchTo s terminalId command ro =
      .ok ({ stdout := mkResultMessage command terminalId
               (if ro then some (synthOutputFile s.now) else none),
             stderr := "", exitCode := 0,
             outputFile := if ro then some (synthOutputFile s.now) else none },
           { s with
             reveals := if info.ttype == "mouse" then s.reveals else s.reveals ++ [info.handle]
             sends := s.sends ++ [(info.handle,
               match (if ro then some (synthOutputFile s.now) else none) with
               | some f => command ++ " > " ++ f ++ " 2>&1"
               | none => command)]
             commandLog := logCommandExecution s.commandLog terminalId info.ttype command
               (if ro then some (synthOutputFile s.now) else none) none s.now
             managed := alInsert terminalId { info with lastActivity := s.now } s.managed
             state := upsertTerminal s.state (.str terminalId)
               { ttype := info.ttype, createdTime := info.createdTime, lastActivity := s.now,
                 tname := info.tname } s.now }) := by
  unfold dispatchTo
  rw [hget]

theorem sendCommand_ok_inv (s : Sys) (terminalId0 : Option String) (command : String)
    (ca ro : Bool) (r : DispatchResult) (s' : Sys)
    (h : sendCommandToTerminal s terminalId0 command ca ro = .ok (r, s')) :
    ∃ terminalId info, resolveTargetId s terminalId0 = .ok terminalId
      ∧ alGet terminalId s.managed = some info
      ∧ dispatchTo s terminalId command ro = .ok (r, s') := by
  cases hres : resolveTargetId s terminalId0 with
  | error e =>
    have heq : sendCommandToTerminal s terminalId0 command ca ro = .error e := by
      unfold sendCommandToTerminal
      rw [hres]
    rw [heq] at h
    simp at h
  | ok terminalId =>
    have heq : sendCommandToTerminal s terminalId0 command ca ro =
        dispatchTo s terminalId command ro := by
      unfold sendCommandToTerminal
      rw [hres]
    rw [heq] at h
    cases hget : alGet terminalId s.managed with
    | none =>
      have hd : dispatchTo s terminalId command ro = .error (.terminalNotFound terminalId) := by
        unfold dispatchTo
        rw [hget]
      rw [hd] at h
      simp at h
    | some info => exact ⟨terminalId, info, rfl, hget, h⟩

/-- A registered hidden mouse channel used by the concrete dispatch states. -/
def mouseInfo1 : MTermInfo :=
  { handle := 0, ttype := "mouse", createdTime := 0, lastActivity := 0,
    tname := "REMOTE TERMINAL (MOUSE)" }

/-- The persisted descriptor matching `mouseInfo1`. -/
def mouseDesc1 : ChannelDesc :=
  { id := "1", ttype := "mouse", createdTime := 0, lastActivity := 0,
    tname := "REMOTE TERMINAL (MOUSE)", lastUpdated := 0 }

/-- A system state with exactly one registered channel: the Primary (mouse)
channel under id "1". -/
def sys1 : Sys :=
  { vsTerminals := [{ handle := 0, vname := defaultShellName }], nextHandle := 1,
    managed := [("1", mouseInfo1)],
    state := { terminals := [("1", mouseDesc1)], terminalIdCounter := 2 },
    commandLog := [], mouseTerminalId := some "1", catTerminalId := none,
    terminalsInitialized := false, reveals := [], sends := [], now := 3 }

/-- Claim C3, counterexample: a dispatch that returns appends its single
audit entry with `status: 'executed'` — not `status: "started"` as the claim
states (`logCommandExecution` hard-codes `status: 'executed'`). -/
theorem dispatch_entry_status_counterexample :
    ((sendCommandToTerminal sys1 (some "1") "whoami" true true).toOption.map
      (fun rs => rs.2.commandLog.map LogEntry.status)) = some ["executed"]
    ∧ "executed" ≠ "started" :=
  ⟨rfl, by decide⟩

/-- Claim C3 (amended): every dispatch call that returns appends exactly one
audit-log entry before returning, and that entry records the dispatched
command with `result` still `null` and `status` equal to `"executed"`. -/
theorem dispatch_appends_one_entry (s : Sys) (terminalId0 : Option String) (command : String)
    (ca ro : Bool) (r : DispatchResult) (s' : Sys)
    (h : sendCommandToTerminal s terminalId0 command ca ro = .ok (r, s')) :
    ∃ e, s'.commandLog = s.commandLog ++ [e] ∧ e.status = "executed" ∧ e.result = none
      ∧ e.command = command := by
  obtain ⟨tid, info, _, hget, hd⟩ := sendCommand_ok_inv s terminalId0 command ca ro r s' h
  rw [dispatchTo_of_get s tid command ro info hget, Except.ok.injEq, Prod.mk.injEq] at hd
  obtain ⟨_, hs⟩ := hd
  refine ⟨{ lid := s.commandLog.length + 1, tstamp := s.now, terminalId := tid,
            terminalType := info.ttype, command := command,
            outputFile := if ro then some (synthOutputFile s.now) else none,
            result := none, status := "executed" }, ?_, rfl, rfl, rfl⟩
  rw [← hs]
  rfl

/-- Witness for the amended C3 at a concrete dispatch. -/
theorem dispatch_appends_one_entry_witness :
    ∃ e r s', sendCommandToTerminal sys1 (some "1") "pwd" true false = .ok (r, s')
      ∧ s'.commandLog = sys1.commandLog ++ [e]
      ∧ e.status = "executed" ∧ e.result = none ∧ e.command = "pwd" := by
  obtain ⟨e, h1, h2, h3, h4⟩ := dispatch_appends_one_entry sys1 (some "1") "pwd" true false
    _ _ rfl
  exact ⟨e, _, _, rfl, h1, h2, h3, h4⟩

/-- Claim C5, counterexample: with the Primary channel registered under id
"1", a dispatch whose channel id "99" is unresolvable does **not** resolve to
the Primary id — it fails with the terminal-not-found error instead, so the
claim's "null or unresolvable resolves to the Primary id" is false for
non-null unresolvable ids. -/
theorem dispatch_unresolvable_counterexample :
    findMouseId sys1.managed = some "1"
    ∧ sendCommandToTerminal sys1 (some "99") "whoami" true true =
        .error (.terminalNotFound "99") :=
  ⟨rfl, rfl⟩

/-- Claim C5 (amended): a falsy (null/empty) channel id resolves to the first
registered Primary (mouse) channel id and fails with the mouse-not-found
error when none is registered; a non-falsy id that is not in the registry
fails with the terminal-not-found error (it is not redirected to the
Primary); and in every case the dispatch layer creates no channel: a
returning call leaves the id counter and the set of registered channel ids
unchanged (a throwing call leaves the state untouched entirely). -/
theorem dispatch_resolution (s : Sys) (terminalId0 : Option String) (command : String)
    (ca ro : Bool) :
    (idFalsy terminalId0 = true → findMouseId s.managed = none →
        sendCommandToTerminal s terminalId0 command ca ro = .error .mouseNotFound)
    ∧ (idFalsy terminalId0 = true → ∀ m, findMouseId s.managed = some m →
        sendCommandToTerminal s terminalId0 command ca ro =
          sendCommandToTerminal s (some m) command ca ro)
    ∧ (∀ t, terminalId0 = some t → idFalsy terminalId0 = false →
        alGet t s.managed = none →
        sendCommandToTerminal s terminalId0 command ca ro = .error (.terminalNotFound t))
    ∧ (∀ r s', sendCommandToTerminal s terminalId0 command ca ro = .ok (r, s') →
        s'.state.terminalIdCounter = s.state.terminalIdCounter
        ∧ s'.managed.map Prod.fst = s.managed.map Prod.fst) := by
  refine ⟨?_, ?_, ?_, ?_⟩
  · intro hf hnone
    unfold sendCommandToTerminal resolveTargetId
    rw [if_pos hf, hnone]
  · intro hf m hm
    unfold sendCommandToTerminal resolveTargetId
    rw [if_pos hf, hm]
    by_cases hm' : idFalsy (some m) = true
    · rw [if_pos hm']
    · rw [if_neg hm']
      rfl
  · intro t ht hf hget
    subst ht
    unfold sendCommandToTerminal resolveTargetId
    rw [if_neg (by rw [hf]; exact Bool.false_ne_true)]
    show dispatchTo s t command ro = _
    unfold dispatchTo
    rw [hget]
  · intro r s' h
    obtain ⟨tid, info, _, hget, hd⟩ := sendCommand_ok_inv s terminalId0 command ca ro r s' h
    rw [dispatchTo_of_get s tid command ro info hget, Except.ok.injEq, Prod.mk.injEq] at hd
    obtain ⟨_, hs⟩ := hd
    rw [← hs]
    exact ⟨rfl, alInsert_keys_of_mem _ (by rw [hget]; rfl)⟩

/-- Witness for the amended C5: a falsy id resolves to the registered mouse
channel, and a returning dispatch creates nothing. -/
theorem dispatch_resolution_witness :
    (sendCommandToTerminal sys1 none "whoami" true true =
        sendCommandToTerminal sys1 (some "1") "whoami" true true)
    ∧ ∃ r s', sendCommandToTerminal sys1 none "whoami" true true = .ok (r, s')
        ∧ s'.state.terminalIdCounter = sys1.state.terminalIdCounter
        ∧ s'.managed.map Prod.fst = sys1.managed.map Prod.fst := by
  have h := dispatch_resolution sys1 none "whoami" true true
  refine ⟨h.2.1 rfl "1" rfl, ?_⟩
  obtain ⟨hc, hk⟩ := h.2.2.2 _ _ rfl
  exact ⟨_, _, rfl, hc, hk⟩

/-- Claim C9: a dispatch call that returns always reports `exitCode` 0 and
empty `stderr`, and its `stdout` is the synthesized description built only
from the command, the resolved channel id and the clock-derived output file —
mentioning that file's path when redirection was requested — never the actual
output or exit status of the command (which the model does not even consume). -/
theorem dispatch_result_synthesized (s : Sys) (terminalId0 : Option String) (command : String)
    (ca ro : Bool) (r : DispatchResult) (s' : Sys)
    (h : sendCommandToTerminal s terminalId0 command ca ro = .ok (r, s')) :
    r.exitCode = 0 ∧ r.stderr = ""
    ∧ (∃ terminalId,
        r.stdout = mkResultMessage command terminalId
          (if ro then some (synthOutputFile s.now) else none)
        ∧ r.outputFile = (if ro then some (synthOutputFile s.now) else none))
    ∧ (ro = true → ∃ a b, r.stdout = a ++ synthOutputFile s.now ++ b
        ∧ r.outputFile = some (synthOutputFile s.now))
    ∧ (ro = false → r.outputFile = none) := by
  obtain ⟨tid, info, _, hget, hd⟩ := sendCommand_ok_inv s terminalId0 command ca ro r s' h
  rw [dispatchTo_of_get s tid command ro info hget, Except.ok.injEq, Prod.mk.injEq] at hd
  obtain ⟨hr, _⟩ := hd
  subst hr
  refine ⟨rfl, rfl, ⟨tid, rfl, rfl⟩, ?_, ?_⟩
  · intro hro
    subst hro
    exact ⟨"命令 \"" ++ command ++ "\" 已发送到终端 " ++ tid
        ++ " 执行" ++ "，输出将保存到 " ++ synthOutputFile s.now
        ++ "。请在远程终端上使用 \x27cat ",
      "\x27 命令查看结果。", rfl, rfl⟩
  · intro hro
    subst hro
    rfl

/-- Witness for C9 at a concrete dispatch with redirection. -/
theorem dispatch_result_synthesized_witness :
    ∃ r : DispatchResult,
      (sendCommandToTerminal sys1 (some "1") "id" true true).toOption.map Prod.fst = some r
      ∧ r.exitCode = 0 ∧ r.stderr = ""
      ∧ (∃ a b, r.stdout = a ++ synthOutputFile sys1.now ++ b
          ∧ r.outputFile = some (synthOutputFile sys1.now)) := by
  obtain ⟨h1, h2, _, h4, _⟩ := dispatch_result_synthesized sys1 (some "1") "id" true true
    _ _ rfl
  obtain ⟨a, b, ha, hb⟩ := h4 rfl
  exact ⟨_, rfl, h1, h2, a, b, ha, hb⟩

/-! ### Liveness probing, adoption and reconciliation (extension entry point) -/

/-- JavaScript `hay.includes(needle)` for the non-empty needles used here. -/
def containsSub (hay needle : String) : Bool := (hay.splitOn needle).length ≥ 2

/-- Model of `isTerminalAliveInVSCode(terminal)`: the handle must appear by reference
in the environment's current enumeration (`vscode.window.terminals.some(t =>
t === terminal)`) and answer the `name`/`processId` introspection reads,
which in this model always succeed for an enumerated terminal. -/
def isTerminalAliveInVSCode (s : Sys) (h : Nat) : Bool :=
  s.vsTerminals.any (fun t => t.handle == h)

/-- Model of `findExistingTerminalInVSCode(terminalType)`: scan the environment's
enumeration for the first terminal whose name contains the `MOUSE`/`CAT`
marker; other types never match. -/
def findExistingTerminalInVSCode (s : Sys) (terminalType : String) : Option VTerm :=
  if terminalType == "mouse" then s.vsTerminals.find? (fun t => containsSub t.vname "MOUSE")
  else if terminalType == "cat" then s.vsTerminals.find? (fun t => containsSub t.vname "CAT")
  else none

/-- Model of `tryRecoverExistingTerminal(terminalType, terminalId)`: adopt a matching
pre-existing environment terminal under the known id, registering it and
persisting a recovered descriptor; returns whether adoption succeeded.  No
`show()` call is made here. -/
def tryRecoverExistingTerminal (s : Sys) (terminalType terminalId : String) : Bool × Sys :=
  match findExistingTerminalInVSCode s terminalType with
  | none => (false, s)
  | some t =>
    let info : MTermInfo :=
      { handle := t.handle, ttype := terminalType, createdTime := s.now, lastActivity := s.now,
        tname := terminalType.toUpper ++ " TERMINAL (RECOVERED)" }
    (true,
      { s with
        managed := alInsert terminalId info s.managed
        state := upsertTerminal s.state (.str terminalId)
          { ttype := terminalType, createdTime := s.now, lastActivity := s.now,
            tname := info.tname } s.now })

/-- Model of `ensureMouseTerminalHidden`: deliberately performs no action — hiding is
achieved by never calling `show()` on the mouse terminal. -/
def ensureMouseTerminalHidden (s : Sys) : Sys := s

/-- The `Mouse terminal reference lost, trying to recover...` block: try
adoption of the known id; on failure re-create the mouse terminal and point
`mouseTerminalId` at the freshly minted id. -/
def recreateMouse (s : Sys) (terminalId : String) : Sys :=
  let rec' := tryRecoverExistingTerminal s "mouse" terminalId
  if rec'.1 then rec'.2
  else
    let r := createRemoteTerminal rec'.2 "mouse" true
    { r.2 with mouseTerminalId := some (jsStringOfNat r.1) }

/-- The corresponding block for the cat terminal
(`createLocalTerminal('cat', true)` on recovery failure). -/
def recreateCat (s : Sys) (terminalId : String) : Sys :=
  let rec' := tryRecoverExistingTerminal s "cat" terminalId
  if rec'.1 then rec'.2
  else
    let r := createLocalTerminal rec'.2 "cat" true
    { r.2 with catTerminalId := some (jsStringOfNat r.1) }

/-- The mouse half of `ensureTerminalsExist`'s creation section: create when
no id is known; when the id is known but its registry entry is missing, try
adoption and fall back to re-creation; otherwise leave everything alone. -/
def ensureMouse (s : Sys) : Sys :=
  if idFalsy s.mouseTerminalId then
    let r := createRemoteTerminal s "mouse" true
    { r.2 with mouseTerminalId := some (jsStringOfNat r.1) }
  else
    match alGet (s.mouseTerminalId.getD "") s.managed with
    | some _ => s
    | none => recreateMouse s (s.mouseTerminalId.getD "")

/-- The cat half of `ensureTerminalsExist`'s creation section. -/
def ensureCat (s : Sys) : Sys :=
  if idFalsy s.catTerminalId then
    let r := createLocalTerminal s "cat" true
    { r.2 with catTerminalId := some (jsStringOfNat r.1) }
  else
    match alGet (s.catTerminalId.getD "") s.managed with
    | some _ => s
    | none => recreateCat s (s.catTerminalId.getD "")

/-- The `ensure cat terminal visible` block at the end of the creation
section: `show()` the cat terminal's handle when its registry entry exists. -/
def showCatTerminal (s : Sys) : Sys :=
  match s.catTerminalId with
  | none => s
  | some c =>
    match alGet c s.managed with
    | none => s
    | some info => { s with reveals := s.reveals ++ [info.handle] }

/-- The deep-check guard of `ensureTerminalsExist`: already initialized, both
ids known, both registry entries present, and both handles alive in the
environment — in which case the pass returns early without touching anything
(`ensureMouseTerminalHidden` being a no-op). -/
def ensureDeepCheck (s : Sys) : Bool :=
  s.terminalsInitialized && !idFalsy s.mouseTerminalId && !idFalsy s.catTerminalId &&
    (match alGet (s.mouseTerminalId.getD "") s.managed,
           alGet (s.catTerminalId.getD "") s.managed with
     | some mi, some ci =>
        isTerminalAliveInVSCode s mi.handle && isTerminalAliveInVSCode s ci.handle
     | _, _ => false)

/-- Model of `ensureTerminalsExist()` (extension entry point), as a single sequential
reconciliation pass (the creation lock only serialises concurrent passes and
is invisible to the sequential semantics): early-return when the deep check
passes; otherwise run the mouse and cat creation/recovery sections, show the
cat terminal, mark initialization and return the current ids. -/
def ensureTerminalsExist (s : Sys) : (Option String × Option String) × Sys :=
  if ensureDeepCheck s then
    ((s.mouseTerminalId, s.catTerminalId), ensureMouseTerminalHidden s)
  else
    let s3 := showCatTerminal (ensureCat (ensureMouse s))
    ((s3.mouseTerminalId, s3.catTerminalId), { s3 with terminalsInitialized := true })

/-! ### Claim C2 — dead-handle reclamation -/

/-- The registry entry of a Primary channel whose environment terminal
(handle 0) has been closed. -/
def deadMouseInfo : MTermInfo :=
  { handle := 0, ttype := "mouse", createdTime := 0, lastActivity := 0,
    tname := "REMOTE TERMINAL (MOUSE)" }

/-- The registry entry of the still-live Secondary channel (handle 1). -/
def liveCatInfo : MTermInfo :=
  { handle := 1, ttype := "cat", createdTime := 0, lastActivity := 0,
    tname := "LOCAL TERMINAL (CAT)" }

/-- The persisted descriptor of the Secondary channel. -/
def catDesc2 : ChannelDesc :=
  { id := "2", ttype := "cat", createdTime := 0, lastActivity := 0,
    tname := "LOCAL TERMINAL (CAT)", lastUpdated := 0 }

/-- An initialized state in which the environment has stopped enumerating the
registered Primary handle (handle 0 is gone from `vsTerminals`) while the
registry and persisted state still hold both channels. -/
def sysDeadMouse : Sys :=
  { vsTerminals := [{ handle := 1, vname := defaultShellName }],
    nextHandle := 2,
    managed := [("1", deadMouseInfo), ("2", liveCatInfo)],
    state := { terminals := [("1", mouseDesc1), ("2", catDesc2)], terminalIdCounter := 3 },
    commandLog := [], mouseTerminalId := some "1", catTerminalId := some "2",
    terminalsInitialized := true, reveals := [1], sends := [], now := 10 }

/-- Claim C2, behaviour of the code at the failing input: although the
liveness probe fails for the Primary handle, the next `ensure()` pass falls
through to a creation section that only checks for a missing id or a missing
registry entry — both still present — so it creates nothing, returns the old
ids, leaves the id counter untouched and keeps the dead Primary id in both
the registry and the persisted state.  The claim (and the source's own log
message `needs re-creation`) says a new Primary id strictly greater than the
prior counter is minted and the old id dropped. -/
theorem ensure_dead_mouse_not_reclaimed :
    isTerminalAliveInVSCode sysDeadMouse deadMouseInfo.handle = false
    ∧ (ensureTerminalsExist sysDeadMouse).1 = (some "1", some "2")
    ∧ (ensureTerminalsExist sysDeadMouse).2.state.terminalIdCounter =
        sysDeadMouse.state.terminalIdCounter
    ∧ (ensureTerminalsExist sysDeadMouse).2.managed = sysDeadMouse.managed
    ∧ alGet "1" (ensureTerminalsExist sysDeadMouse).2.state.terminals = some mouseDesc1 :=
  ⟨rfl, rfl, rfl, rfl, rfl⟩

/-! ### Claim C8 — idempotence of `ensure()` -/

/-- The post-condition every completed `ensure()` pass establishes: both ids
are known (non-falsy) and both have registry entries. -/
def EnsuredIds (s : Sys) : Prop :=
  idFalsy s.mouseTerminalId = false ∧ idFalsy s.catTerminalId = false
  ∧ (alGet (s.mouseTerminalId.getD "") s.managed).isSome = true
  ∧ (alGet (s.catTerminalId.getD "") s.managed).isSome = true

theorem beq_empty_jsStringOfNat (n : Nat) : (jsStringOfNat n == "") = false := by
  rw [beq_eq_false_iff_ne]
  exact jsStringOfNat_ne_empty n

theorem alGet_alInsert_isSome {α : Type} (k k' : String) (v : α) (l : List (String × α))
    (h : (alGet k' l).isSome = true) : (alGet k' (alInsert k v l)).isSome = true := by
  by_cases hk : k = k'
  · subst hk
    rw [alGet_alInsert_self]
    rfl
  · rw [alGet_alInsert_ne hk]
    exact h

theorem alGet_alInsert_self_isSome {α : Type} (k : String) (v : α) (l : List (String × α)) :
    (alGet k (alInsert k v l)).isSome = true := by
  rw [alGet_alInsert_self]
  rfl

theorem recreateMouse_ensured (s : Sys) (hf : idFalsy s.mouseTerminalId = false) :
    idFalsy (recreateMouse s (s.mouseTerminalId.getD "")).mouseTerminalId = false
    ∧ (alGet ((recreateMouse s (s.mouseTerminalId.getD "")).mouseTerminalId.getD "")
        (recreateMouse s (s.mouseTerminalId.getD "")).managed).isSome = true := by
  unfold recreateMouse
  by_cases hr : (tryRecoverExistingTerminal s "mouse" (s.mouseTerminalId.getD "")).1 = true
  · rw [if_pos hr]
    unfold tryRecoverExistingTerminal at hr ⊢
    cases hx : findExistingTerminalInVSCode s "mouse" with
    | none => rw [hx] at hr; simp at hr
    | some t => exact ⟨hf, alGet_alInsert_self_isSome _ _ _⟩
  · rw [if_neg hr]
    constructor
    · simp [idFalsy, beq_empty_jsStringOfNat]
    · simp [createRemoteTerminal, getNextTerminalId, idFalsy, alGet_alInsert_self]

theorem recreateCat_ensured (s : Sys) (hf : idFalsy s.catTerminalId = false) :
    idFalsy (recreateCat s (s.catTerminalId.getD "")).catTerminalId = false
    ∧ (alGet ((recreateCat s (s.catTerminalId.getD "")).catTerminalId.getD "")
        (recreateCat s (s.catTerminalId.getD "")).managed).isSome = true := by
  unfold recreateCat
  by_cases hr : (tryRecoverExistingTerminal s "cat" (s.catTerminalId.getD "")).1 = true
  · rw [if_pos hr]
    unfold tryRecoverExistingTerminal at hr ⊢
    cases hx : findExistingTerminalInVSCode s "cat" with
    | none => rw [hx] at hr; simp at hr
    | some t => exact ⟨hf, alGet_alInsert_self_isSome _ _ _⟩
  · rw [if_neg hr]
    constructor
    · simp [idFalsy, beq_empty_jsStringOfNat]
    · simp [createLocalTerminal, getNextTerminalId, idFalsy, alGet_alInsert_self]

theorem ensureMouse_ensured (s : Sys) :
    idFalsy (ensureMouse s).mouseTerminalId = false
    ∧ (alGet ((ensureMouse s).mouseTerminalId.getD "") (ensureMouse s).managed).isSome
        = true := by
  unfold ensureMouse
  by_cases hf : idFalsy s.mouseTerminalId = true
  · rw [if_pos hf]
    constructor
    · simp [idFalsy, beq_empty_jsStringOfNat]
    · simp [createRemoteTerminal, getNextTerminalId, idFalsy, alGet_alInsert_self]
  · have hf' : idFalsy s.mouseTerminalId = false := by simpa using hf
    rw [if_neg hf]
    cases hg : alGet (s.mouseTerminalId.getD "") s.managed with
    | some info =>
      refine ⟨hf', ?_⟩
      show (alGet (s.mouseTerminalId.getD "") s.managed).isSome = true
      rw [hg]
      rfl
    | none => exact recreateMouse_ensured s hf'

theorem ensureCat_ensured (s : Sys) :
    idFalsy (ensureCat s).catTerminalId = false
    ∧ (alGet ((ensureCat s).catTerminalId.getD "") (ensureCat s).managed).isSome = true := by
  unfold ensureCat
  by_cases hf : idFalsy s.catTerminalId = true
  · rw [if_pos hf]
    constructor
    · simp [idFalsy, beq_empty_jsStringOfNat]
    · simp [createLocalTerminal, getNextTerminalId, idFalsy, alGet_alInsert_self]
  · have hf' : idFalsy s.catTerminalId = false := by simpa using hf
    rw [if_neg hf]
    cases hg : alGet (s.catTerminalId.getD "") s.managed with
    | some info =>
      refine ⟨hf', ?_⟩
      show (alGet (s.catTerminalId.getD "") s.managed).isSome = true
      rw [hg]
      rfl
    | none => exact recreateCat_ensured s hf'

theorem recreateCat_preserves_mouse (s : Sys) (c m : String) :
    (recreateCat s c).mouseTerminalId = s.mouseTerminalId
    ∧ ((alGet m s.managed).isSome = true →
        (alGet m (recreateCat s c).managed).isSome = true) := by
  unfold recreateCat
  by_cases hr : (tryRecoverExistingTerminal s "cat" c).1 = true
  · rw [if_pos hr]
    unfold tryRecoverExistingTerminal
    cases findExistingTerminalInVSCode s "cat" with
    | none => exact ⟨rfl, fun h => h⟩
    | some t => exact ⟨rfl, fun h => alGet_alInsert_isSome _ _ _ _ h⟩
  · rw [if_neg hr]
    constructor
    · simp only [createLocalTerminal, getNextTerminalId]
      unfold tryRecoverExistingTerminal
      cases findExistingTerminalInVSCode s "cat" with
      | none => rfl
      | some t => rfl
    · intro h
      simp only [createLocalTerminal, getNextTerminalId]
      apply alGet_alInsert_isSome
      unfold tryRecoverExistingTerminal
      cases findExistingTerminalInVSCode s "cat" with
      | none => exact h
      | some t => exact alGet_alInsert_isSome _ _ _ _ h

theorem ensureCat_preserves_mouse (s : Sys) (m : String) :
    (ensureCat s).mouseTerminalId = s.mouseTerminalId
    ∧ ((alGet m s.managed).isSome = true → (alGet m (ensureCat s).managed).isSome = true) := by
  unfold ensureCat
  by_cases hf : idFalsy s.catTerminalId = true
  · rw [if_pos hf]
    refine ⟨rfl, fun h => ?_⟩
    simp only [createLocalTerminal, getNextTerminalId]
    exact alGet_alInsert_isSome _ _ _ _ h
  · rw [if_neg hf]
    cases hg : alGet (s.catTerminalId.getD "") s.managed with
    | some info => exact ⟨rfl, fun h => h⟩
    | none => exact recreateCat_preserves_mouse s _ m

theorem showCatTerminal_preserves (s : Sys) :
    (showCatTerminal s).managed = s.managed
    ∧ (showCatTerminal s).mouseTerminalId = s.mouseTerminalId
    ∧ (showCatTerminal s).catTerminalId = s.catTerminalId
    ∧ (showCatTerminal s).state = s.state := by
  unfold showCatTerminal
  split
  · exact ⟨rfl, rfl, rfl, rfl⟩
  · split
    · exact ⟨rfl, rfl, rfl, rfl⟩
    · exact ⟨rfl, rfl, rfl, rfl⟩

theorem ensure_post (s : Sys) :
    EnsuredIds (ensureTerminalsExist s).2
    ∧ (ensureTerminalsExist s).1 =
        ((ensureTerminalsExist s).2.mouseTerminalId, (ensureTerminalsExist s).2.catTerminalId) := by
  unfold ensureTerminalsExist
  by_cases hd : ensureDeepCheck s = true
  · rw [if_pos hd]
    unfold ensureDeepCheck at hd
    simp only [Bool.and_eq_true, Bool.not_eq_true'] at hd
    obtain ⟨⟨⟨_, hm⟩, hc⟩, hmatch⟩ := hd
    refine ⟨⟨hm, hc, ?_, ?_⟩, rfl⟩
    · cases hg1 : alGet (s.mouseTerminalId.getD "") s.managed with
      | none =>
        rw [hg1] at hmatch
        cases hg2 : alGet (s.catTerminalId.getD "") s.managed <;>
          rw [hg2] at hmatch <;> simp at hmatch
      | some mi =>
        show (alGet (s.mouseTerminalId.getD "") s.managed).isSome = true
        rw [hg1]
        rfl
    · cases hg2 : alGet (s.catTerminalId.getD "") s.managed with
      | none =>
        rw [hg2] at hmatch
        cases hg1 : alGet (s.mouseTerminalId.getD "") s.managed <;>
          rw [hg1] at hmatch <;> simp at hmatch
      | some ci =>
        show (alGet (s.catTerminalId.getD "") s.managed).isSome = true
        rw [hg2]
        rfl
  · rw [if_neg hd]
    obtain ⟨hm1, hm2⟩ := ensureMouse_ensured s
    obtain ⟨hc1, hc2⟩ := ensureCat_ensured (ensureMouse s)
    obtain ⟨hpm1, hpm2⟩ := ensureCat_preserves_mouse (ensureMouse s)
      ((ensureMouse s).mouseTerminalId.getD "")
    obtain ⟨hs1, hs2, hs3, _⟩ := showCatTerminal_preserves (ensureCat (ensureMouse s))
    refine ⟨⟨?_, ?_, ?_, ?_⟩, rfl⟩
    · show idFalsy (showCatTerminal (ensureCat (ensureMouse s))).mouseTerminalId = false
      rw [hs2, hpm1]
      exact hm1
    · show idFalsy (showCatTerminal (ensureCat (ensureMouse s))).catTerminalId = false
      rw [hs3]
      exact hc1
    · show (alGet ((showCatTerminal (ensureCat (ensureMouse s))).mouseTerminalId.getD "")
          (showCatTerminal (ensureCat (ensureMouse s))).managed).isSome = true
      rw [hs1, hs2, hpm1]
      exact hpm2 hm2
    · show (alGet ((showCatTerminal (ensureCat (ensureMouse s))).catTerminalId.getD "")
          (showCatTerminal (ensureCat (ensureMouse s))).managed).isSome = true
      rw [hs1, hs3]
      exact hc2

theorem ensure_stable (s : Sys) (h : EnsuredIds s) :
    (ensureTerminalsExist s).1 = (s.mouseTerminalId, s.catTerminalId)
    ∧ (ensureTerminalsExist s).2.managed = s.managed
    ∧ (ensureTerminalsExist s).2.state = s.state
    ∧ (ensureTerminalsExist s).2.mouseTerminalId = s.mouseTerminalId
    ∧ (ensureTerminalsExist s).2.catTerminalId = s.catTerminalId := by
  obtain ⟨hm, hc, hgm, hgc⟩ := h
  have hm1 : ensureMouse s = s := by
    unfold ensureMouse
    rw [if_neg (by rw [hm]; exact Bool.false_ne_true)]
    cases hg : alGet (s.mouseTerminalId.getD "") s.managed with
    | none => rw [hg] at hgm; simp at hgm
    | some info => rfl
  have hc1 : ensureCat s = s := by
    unfold ensureCat
    rw [if_neg (by rw [hc]; exact Bool.false_ne_true)]
    cases hg : alGet (s.catTerminalId.getD "") s.managed with
    | none => rw [hg] at hgc; simp at hgc
    | some info => rfl
  unfold ensureTerminalsExist
  by_cases hd : ensureDeepCheck s = true
  · rw [if_pos hd]
    exact ⟨rfl, rfl, rfl, rfl, rfl⟩
  · rw [if_neg hd, hm1, hc1]
    obtain ⟨hs1, hs2, hs3, hs4⟩ := showCatTerminal_preserves s
    refine ⟨?_, hs1, hs4, hs2, hs3⟩
    show ((showCatTerminal s).mouseTerminalId, (showCatTerminal s).catTerminalId)
        = (s.mouseTerminalId, s.catTerminalId)
    rw [hs2, hs3]

/-- Claim C8: once an `ensure()` pass has completed, a second pass with no
intervening external disposal or environment change returns exactly the same
pair of Primary and Secondary ids and creates no channel: the registry and
the persisted state (channel map and id counter) are unchanged. -/
theorem ensure_idempotent (s : Sys) (ids : Option String × Option String) (s₁ : Sys)
    (h : ensureTerminalsExist s = (ids, s₁)) :
    (ensureTerminalsExist s₁).1 = ids
    ∧ (ensureTerminalsExist s₁).2.managed = s₁.managed
    ∧ (ensureTerminalsExist s₁).2.state = s₁.state := by
  have hp := ensure_post s
  rw [h] at hp
  obtain ⟨he, hids⟩ := hp
  obtain ⟨h1, h2, h3, _, _⟩ := ensure_stable s₁ he
  refine ⟨?_, h2, h3⟩
  rw [h1]
  exact hids.symm

/-- The pristine state of a fresh install: an arbitrary environment, no
registry entries, no persisted channels, and the counter at 1. -/
def initSys (env : List VTerm) (h0 : Nat) : Sys :=
  { vsTerminals := env, nextHandle := h0, managed := [], state := freshStateData,
    commandLog := [], mouseTerminalId := none, catTerminalId := none,
    terminalsInitialized := false, reveals := [], sends := [], now := 0 }

/-- Witness for C8: a concrete first `ensure()` from the pristine state,
followed by a second pass returning the same ids and creating nothing. -/
theorem ensure_idempotent_witness :
    ∃ ids s₁, ensureTerminalsExist (initSys [] 0) = (ids, s₁)
      ∧ (ensureTerminalsExist s₁).1 = ids
      ∧ (ensureTerminalsExist s₁).2.managed = s₁.managed
      ∧ (ensureTerminalsExist s₁).2.state = s₁.state := by
  obtain ⟨h1, h2, h3⟩ := ensure_idempotent (initSys [] 0) _ _ rfl
  exact ⟨_, _, rfl, h1, h2, h3⟩

/-! ### Claim C1 — execution traces and the visibility invariant

The controller's operations are modelled as a trace alphabet: terminal
creation (`createRemoteTerminal` with any type, `createLocalTerminal` which
every call site invokes with type `'cat'`), reconciliation (`ensure()`),
command dispatch, and clock ticks.  A trace is executed from the pristine
state of a fresh install. -/

inductive Op where
  | opCreateRemote (ty : String) (welcome : Bool)
  | opCreateLocalCat (welcome : Bool)
  | opEnsure
  | opDispatch (terminalId : Option String) (command : String) (clearAfter redirect : Bool)
  | opTick

/-- One controller operation; a dispatch that throws leaves the state
unchanged (the error propagates to the HTTP caller). -/
def stepOp (s : Sys) : Op → Sys
  | .opCreateRemote ty w => (createRemoteTerminal s ty w).2
  | .opCreateLocalCat w => (createLocalTerminal s "cat" w).2
  | .opEnsure => (ensureTerminalsExist s).2
  | .opDispatch tid cmd ca ro =>
    match sendCommandToTerminal s tid cmd ca ro with
    | .ok r => r.2
    | .error _ => s
  | .opTick => { s with now := s.now + 1 }

def runOps (s : Sys) : List Op → Sys
  | [] => s
  | o :: rest => runOps (stepOp s o) rest

/-! #### The inductive invariant -/

/-- Every handle in the environment, the registry and the reveal log was
allocated below the next-handle counter. -/
def HandlesFresh (s : Sys) : Prop :=
  (∀ t ∈ s.vsTerminals, t.handle < s.nextHandle)
  ∧ (∀ p ∈ s.managed, (Prod.snd p).handle < s.nextHandle)
  ∧ (∀ h ∈ s.reveals, h < s.nextHandle)

/-- Distinct registry entries reference distinct environment terminals. -/
def HandlesDistinct (s : Sys) : Prop :=
  s.managed.Pairwise (fun p q => p.2.handle ≠ q.2.handle)

/-- Every registry key is the decimal rendering of an already-consumed
counter value. -/
def KeysCounterBounded (s : Sys) : Prop :=
  ∀ p ∈ s.managed, ∃ n, n < s.state.terminalIdCounter ∧ p.1 = jsStringOfNat n

/-- No `show()` call was ever issued against a mouse channel's handle. -/
def NoMouseRevealed (s : Sys) : Prop :=
  ∀ p ∈ s.managed, (Prod.snd p).ttype = "mouse" → (Prod.snd p).handle ∉ s.reveals

/-- The tracked Primary id always points at a registered mouse entry. -/
def MouseIdOk (s : Sys) : Prop :=
  ∀ m, s.mouseTerminalId = some m →
    ∃ i, alGet m s.managed = some i ∧ i.ttype = "mouse"

/-- The tracked Secondary id always points at a registered cat entry whose
handle has already received at least one `show()` call. -/
def CatIdOk (s : Sys) : Prop :=
  ∀ c, s.catTerminalId = some c →
    ∃ i, alGet c s.managed = some i ∧ i.ttype = "cat" ∧ i.handle ∈ s.reveals

def Inv (s : Sys) : Prop :=
  HandlesFresh s ∧ HandlesDistinct s ∧ KeysCounterBounded s ∧ NoMouseRevealed s
  ∧ MouseIdOk s ∧ CatIdOk s

/-! #### Shape lemmas for the two creation paths -/

/-- The registry entry a remote creation produces. -/
def remoteInfo (s : Sys) (ty : String) : MTermInfo :=
  { handle := s.nextHandle, ttype := ty, createdTime := s.now, lastActivity := s.now,
    tname := "REMOTE TERMINAL (" ++ ty.toUpper ++ ")" }

/-- The registry entry a local creation produces. -/
def localInfo (s : Sys) (ty : String) : MTermInfo :=
  { handle := s.nextHandle, ttype := ty, createdTime := s.now, lastActivity := s.now,
    tname := "LOCAL TERMINAL (" ++ ty.toUpper ++ ")" }

/-- The persisted descriptor a creation with name `nm` produces. -/
def createdDesc (s : Sys) (ty nm : String) : ChannelDesc :=
  { id := jsStringOfNat s.state.terminalIdCounter, ttype := ty, createdTime := s.now,
    lastActivity := s.now, tname := nm, lastUpdated := s.now }

/-- The persisted state after a creation with name `nm`. -/
def createdState (s : Sys) (ty nm : String) : StateData :=
  { terminals := alInsert (jsStringOfNat s.state.terminalIdCounter)
      (createdDesc s ty nm) s.state.terminals,
    terminalIdCounter := s.state.terminalIdCounter + 1 }

theorem createRemoteTerminal_eq (s : Sys) (ty : String) (w : Bool) :
    createRemoteTerminal s ty w = (s.state.terminalIdCounter,
      { s with
        vsTerminals := s.vsTerminals ++ [{ handle := s.nextHandle, vname := defaultShellName }]
        nextHandle := s.nextHandle + 1
        reveals := if ty == "mouse" then s.reveals else s.reveals ++ [s.nextHandle]
        sends := if w then
            s.sends ++ [(s.nextHandle, welcomeRemote s.state.terminalIdCounter ty)]
          else s.sends
        managed := alInsert (jsStringOfNat s.state.terminalIdCounter) (remoteInfo s ty) s.managed
        state := createdState s ty ("REMOTE TERMINAL (" ++ ty.toUpper ++ ")") }) := rfl

theorem createLocalTerminal_eq (s : Sys) (ty : String) (w : Bool) :
    createLocalTerminal s ty w = (s.state.terminalIdCounter,
      { s with
        vsTerminals := s.vsTerminals ++ [{ handle := s.nextHandle, vname := defaultShellName }]
        nextHandle := s.nextHandle + 1
        reveals := s.reveals ++ [s.nextHandle]
        sends := if w then s.sends ++ welcomeLocal s.nextHandle else s.sends
        managed := alInsert (jsStringOfNat s.state.terminalIdCounter) (localInfo s ty) s.managed
        state := createdState s ty ("LOCAL TERMINAL (" ++ ty.toUpper ++ ")") }) := rfl

/-! #### Helper lemmas for the invariant proof -/

theorem alInsert_fresh_append {α : Type} (k : String) (v : α) :
    ∀ l : List (String × α), (∀ p ∈ l, p.1 ≠ k) → alInsert k v l = l ++ [(k, v)]
  | [], _ => rfl
  | (a, b) :: rest, h => by
    rw [alInsert, if_neg (h (a, b) (List.mem_cons_self _ _)),
      alInsert_fresh_append k v rest (fun p hp => h p (List.mem_cons_of_mem _ hp))]
    rfl

theorem key_fresh (s : Sys) (hk : KeysCounterBounded s) :
    ∀ p ∈ s.managed, p.1 ≠ jsStringOfNat s.state.terminalIdCounter := by
  intro p hp hEq
  obtain ⟨n, hn, hkey⟩ := hk p hp
  rw [hkey] at hEq
  have := jsStringOfNat_inj hEq
  omega

theorem handle_unique (s : Sys) (hd : HandlesDistinct s) {p q : String × MTermInfo}
    (hp : p ∈ s.managed) (hq : q ∈ s.managed) (hh : p.2.handle = q.2.handle) : p.2 = q.2 := by
  by_cases hpq : p = q
  · rw [hpq]
  · exact absurd hh (List.Pairwise.forall (fun a b hab => hab ∘ Eq.symm) hd hp hq hpq)

theorem pairwiseHandles_alInsert (k : String) (v w : MTermInfo) (hh : v.handle = w.handle) :
    ∀ l : List (String × MTermInfo), alGet k l = some w →
      l.Pairwise (fun p q => p.2.handle ≠ q.2.handle) →
      (alInsert k v l).Pairwise (fun p q => p.2.handle ≠ q.2.handle)
  | [], hget, _ => by simp [alGet] at hget
  | (a, b) :: rest, hget, hp => by
    rcases List.pairwise_cons.mp hp with ⟨hhead, htail⟩
    by_cases ha : a = k
    · rw [alGet, if_pos ha] at hget
      injection hget with hget
      rw [alInsert, if_pos ha]
      refine List.pairwise_cons.mpr ⟨?_, htail⟩
      intro q hq
      show v.handle ≠ q.2.handle
      rw [hh, ← hget]
      exact hhead q hq
    · rw [alGet, if_neg ha] at hget
      rw [alInsert, if_neg ha]
      refine List.pairwise_cons.mpr ⟨?_, pairwiseHandles_alInsert k v w hh rest hget htail⟩
      intro q hq
      rcases mem_alInsert hq with hq' | hq'
      · rw [hq']
        show b.handle ≠ v.handle
        rw [hh]
        exact hhead (k, w) (alGet_mem hget)
      · exact hhead q hq'

/-- Inserting a completely fresh channel — new handle, newly minted key —
preserves the invariant, whether its handle is revealed (non-mouse types) or
not (mouse type). -/
theorem Inv_insert_fresh (s : Sys) (hInv : Inv s) (info : MTermInfo)
    (ts' : List (String × ChannelDesc)) (vn : String) (sends' : List (Nat × String))
    (rvs : List Nat)
    (hhandle : info.handle = s.nextHandle)
    (hrvs : rvs = s.reveals ∨ (rvs = s.reveals ++ [s.nextHandle] ∧ info.ttype ≠ "mouse")) :
    Inv { s with
      vsTerminals := s.vsTerminals ++ [{ handle := s.nextHandle, vname := vn }]
      nextHandle := s.nextHandle + 1
      reveals := rvs
      sends := sends'
      managed := alInsert (jsStringOfNat s.state.terminalIdCounter) info s.managed
      state := { terminals := ts', terminalIdCounter := s.state.terminalIdCounter + 1 } } := by
  obtain ⟨⟨hfv, hfm, hfr⟩, hdist, hkeys, hnmr, hmid, hcid⟩ := hInv
  have hfreshkey := key_fresh s hkeys
  have happ := alInsert_fresh_append (jsStringOfNat s.state.terminalIdCounter) info
    s.managed hfreshkey
  have hrvsub : ∀ h, h ∈ s.reveals → h ∈ rvs := by
    rcases hrvs with h | ⟨h, _⟩ <;> rw [h]
    · exact fun _ hh => hh
    · exact fun _ hh => List.mem_append.mpr (Or.inl hh)
  have hrvlt : ∀ h ∈ rvs, h < s.nextHandle + 1 := by
    rcases hrvs with h | ⟨h, _⟩ <;> rw [h]
    · exact fun x hx => Nat.lt_succ_of_lt (hfr x hx)
    · intro x hx
      rcases List.mem_append.mp hx with hx | hx
      · exact Nat.lt_succ_of_lt (hfr x hx)
      · rcases List.mem_singleton.mp hx with rfl
        exact Nat.lt_succ_self _
  refine ⟨⟨?_, ?_, hrvlt⟩, ?_, ?_, ?_, ?_, ?_⟩
  · intro t ht
    rcases List.mem_append.mp ht with ht | ht
    · exact Nat.lt_succ_of_lt (hfv t ht)
    · rcases List.mem_singleton.mp ht with rfl
      exact Nat.lt_succ_self _
  · intro p hp
    rcases mem_alInsert hp with hp | hp
    · rw [hp]
      rw [show ((jsStringOfNat s.state.terminalIdCounter, info) : String × MTermInfo).2 = info
        from rfl, hhandle]
      exact Nat.lt_succ_self _
    · exact Nat.lt_succ_of_lt (hfm p hp)
  · show (alInsert (jsStringOfNat s.state.terminalIdCounter) info s.managed).Pairwise _
    rw [happ]
    refine List.pairwise_append.mpr ⟨hdist, List.pairwise_singleton _ _, ?_⟩
    intro p hp q hq
    rcases List.mem_singleton.mp hq with rfl
    show p.2.handle ≠ info.handle
    rw [hhandle]
    exact Nat.ne_of_lt (hfm p hp)
  · intro p hp
    rcases mem_alInsert hp with hp | hp
    · rw [hp]
      exact ⟨s.state.terminalIdCounter, Nat.lt_succ_self _, rfl⟩
    · obtain ⟨n, hn, hkey⟩ := hkeys p hp
      exact ⟨n, Nat.lt_succ_of_lt hn, hkey⟩
  · intro p hp hty
    rcases mem_alInsert hp with hp | hp
    · rw [hp] at hty ⊢
      rcases hrvs with h | ⟨_, hne⟩
      · rw [h]
        intro hmem
        have := hfr _ hmem
        rw [show ((jsStringOfNat s.state.terminalIdCounter, info) : String × MTermInfo).2 = info
          from rfl, hhandle] at this
        exact Nat.lt_irrefl _ this
      · exact absurd hty hne
    · intro hmem
      have hnot := hnmr p hp hty
      rcases hrvs with h | ⟨h, _⟩
      · rw [h] at hmem
        exact hnot hmem
      · rw [h] at hmem
        rcases List.mem_append.mp hmem with hmem | hmem
        · exact hnot hmem
        · rcases List.mem_singleton.mp hmem with heq
          exact Nat.ne_of_lt (hfm p hp) heq
  · intro m hm
    obtain ⟨i, hg, ht⟩ := hmid m hm
    refine ⟨i, ?_, ht⟩
    rw [alGet_alInsert_ne ?_ info s.managed]
    · exact hg
    · intro hEq
      exact hfreshkey (m, i) (alGet_mem hg) hEq.symm
  · intro c hc
    obtain ⟨i, hg, ht, hrev⟩ := hcid c hc
    refine ⟨i, ?_, ht, hrvsub _ hrev⟩
    rw [alGet_alInsert_ne ?_ info s.managed]
    · exact hg
    · intro hEq
      exact hfreshkey (c, i) (alGet_mem hg) hEq.symm

theorem Inv_createRemote (s : Sys) (hInv : Inv s) (ty : String) (w : Bool) :
    Inv (createRemoteTerminal s ty w).2 := by
  rw [createRemoteTerminal_eq]
  by_cases hm : (ty == "mouse") = true
  · rw [if_pos hm]
    exact Inv_insert_fresh s hInv _ _ _ _ _ rfl (Or.inl rfl)
  · rw [if_neg hm]
    exact Inv_insert_fresh s hInv _ _ _ _ _ rfl (Or.inr ⟨rfl, by simpa using hm⟩)

theorem Inv_createLocal (s : Sys) (hInv : Inv s) (ty : String) (w : Bool)
    (hty : ty ≠ "mouse") : Inv (createLocalTerminal s ty w).2 := by
  rw [createLocalTerminal_eq]
  exact Inv_insert_fresh s hInv _ _ _ _ _ rfl (Or.inr ⟨rfl, hty⟩)

theorem Inv_set_mouseId (s : Sys) (hInv : Inv s) (m : String)
    (hm : ∃ i, alGet m s.managed = some i ∧ i.ttype = "mouse") :
    Inv { s with mouseTerminalId := some m } := by
  obtain ⟨h1, h2, h3, h4, _, h6⟩ := hInv
  refine ⟨h1, h2, h3, h4, ?_, h6⟩
  intro m' hm'
  injection hm' with hm'
  rw [← hm']
  exact hm

theorem Inv_set_catId (s : Sys) (hInv : Inv s) (c : String)
    (hc : ∃ i, alGet c s.managed = some i ∧ i.ttype = "cat" ∧ i.handle ∈ s.reveals) :
    Inv { s with catTerminalId := some c } := by
  obtain ⟨h1, h2, h3, h4, h5, _⟩ := hInv
  refine ⟨h1, h2, h3, h4, h5, ?_⟩
  intro c' hc'
  injection hc' with hc'
  rw [← hc']
  exact hc

theorem ensureMouse_inv (s : Sys) (hInv : Inv s) : Inv (ensureMouse s) := by
  unfold ensureMouse
  by_cases hf : idFalsy s.mouseTerminalId = true
  · rw [if_pos hf]
    apply Inv_set_mouseId _ (Inv_createRemote s hInv "mouse" true)
    refine ⟨remoteInfo s "mouse", ?_, rfl⟩
    rw [createRemoteTerminal_eq]
    exact alGet_alInsert_self _ _ _
  · rw [if_neg hf]
    have hf' : idFalsy s.mouseTerminalId = false := by simpa using hf
    cases hmid : s.mouseTerminalId with
    | none => rw [hmid] at hf'; simp [idFalsy] at hf'
    | some m =>
      obtain ⟨i, hg, _⟩ := hInv.2.2.2.2.1 m hmid
      rw [Option.getD_some, hg]
      exact hInv

theorem ensureCat_inv (s : Sys) (hInv : Inv s) : Inv (ensureCat s) := by
  unfold ensureCat
  by_cases hf : idFalsy s.catTerminalId = true
  · rw [if_pos hf]
    apply Inv_set_catId _ (Inv_createLocal s hInv "cat" true (by decide))
    refine ⟨localInfo s "cat", ?_, rfl, ?_⟩
    · rw [createLocalTerminal_eq]
      exact alGet_alInsert_self _ _ _
    · rw [createLocalTerminal_eq]
      exact List.mem_append.mpr (Or.inr (List.mem_singleton.mpr rfl))
  · rw [if_neg hf]
    have hf' : idFalsy s.catTerminalId = false := by simpa using hf
    cases hcid : s.catTerminalId with
    | none => rw [hcid] at hf'; simp [idFalsy] at hf'
    | some c =>
      obtain ⟨i, hg, _, _⟩ := hInv.2.2.2.2.2 c hcid
      rw [Option.getD_some, hg]
      exact hInv

theorem showCat_inv (s : Sys) (hInv : Inv s) : Inv (showCatTerminal s) := by
  unfold showCatTerminal
  split
  · exact hInv
  next c hc =>
    split
    · exact hInv
    next info hg =>
      obtain ⟨⟨hfv, hfm, hfr⟩, hdist, hkeys, hnmr, hmid, hcid⟩ := hInv
      obtain ⟨i, hgi, hti, hri⟩ := hcid c hc
      rw [hg] at hgi
      injection hgi with hgi
      subst hgi
      have hmem : (c, info) ∈ s.managed := alGet_mem hg
      refine ⟨⟨hfv, hfm, ?_⟩, hdist, hkeys, ?_, ?_, ?_⟩
      · intro h hh
        rcases List.mem_append.mp hh with hh | hh
        · exact hfr h hh
        · rcases List.mem_singleton.mp hh with rfl
          exact hfm (c, info) hmem
      · intro p hp hty
        intro hmemrev
        rcases List.mem_append.mp hmemrev with hh | hh
        · exact hnmr p hp hty hh
        · rcases List.mem_singleton.mp hh with heq
          have := handle_unique s hdist hp hmem heq
          rw [this] at hty
          rw [hty] at hti
          exact absurd hti (by decide)
      · intro m hm
        obtain ⟨j, hj, htj⟩ := hmid m hm
        exact ⟨j, hj, htj⟩
      · intro c' hc'
        obtain ⟨j, hj, htj, hrj⟩ := hcid c' hc'
        exact ⟨j, hj, htj, List.mem_append.mpr (Or.inl hrj)⟩

theorem ensure_inv (s : Sys) (hInv : Inv s) : Inv (ensureTerminalsExist s).2 := by
  unfold ensureTerminalsExist
  by_cases hd : ensureDeepCheck s = true
  · rw [if_pos hd]
    exact hInv
  · rw [if_neg hd]
    exact showCat_inv _ (ensureCat_inv _ (ensureMouse_inv s hInv))

/-- Overwriting a registered entry in place — same key, same handle, same
type, refreshed `lastActivity` — and appending to the log/sends, possibly
revealing the (non-mouse) target's handle, preserves the invariant. -/
theorem Inv_update_entry (s : Sys) (hInv : Inv s) (tid : String) (info : MTermInfo)
    (hget : alGet tid s.managed = some info)
    (lg : List LogEntry) (sd : List (Nat × String)) (ts' : List (String × ChannelDesc))
    (rvs : List Nat)
    (hrvs : rvs = s.reveals ∨ (rvs = s.reveals ++ [info.handle] ∧ info.ttype ≠ "mouse")) :
    Inv { s with
      reveals := rvs
      sends := sd
      commandLog := lg
      managed := alInsert tid { info with lastActivity := s.now } s.managed
      state := { terminals := ts', terminalIdCounter := s.state.terminalIdCounter } } := by
  obtain ⟨⟨hfv, hfm, hfr⟩, hdist, hkeys, hnmr, hmid, hcid⟩ := hInv
  have hmem : (tid, info) ∈ s.managed := alGet_mem hget
  have hrvsub : ∀ h, h ∈ s.reveals → h ∈ rvs := by
    rcases hrvs with h | ⟨h, _⟩ <;> rw [h]
    · exact fun _ hh => hh
    · exact fun _ hh => List.mem_append.mpr (Or.inl hh)
  refine ⟨⟨hfv, ?_, ?_⟩, ?_, ?_, ?_, ?_, ?_⟩
  · intro p hp
    rcases mem_alInsert hp with hp | hp
    · rw [hp]
      exact hfm (tid, info) hmem
    · exact hfm p hp
  · intro h hh
    rcases hrvs with hr | ⟨hr, _⟩
    · rw [hr] at hh
      exact hfr h hh
    · rw [hr] at hh
      rcases List.mem_append.mp hh with hh | hh
      · exact hfr h hh
      · rcases List.mem_singleton.mp hh with rfl
        exact hfm (tid, info) hmem
  · exact pairwiseHandles_alInsert tid { info with lastActivity := s.now } info rfl
      s.managed hget hdist
  · intro p hp
    rcases mem_alInsert hp with hp | hp
    · rw [hp]
      obtain ⟨n, hn, hkey⟩ := hkeys (tid, info) hmem
      exact ⟨n, hn, hkey⟩
    · exact hkeys p hp
  · intro p hp hty
    rcases mem_alInsert hp with hp | hp
    · rw [hp] at hty ⊢
      intro hmemrev
      rcases hrvs with hr | ⟨hr, hne⟩
      · rw [hr] at hmemrev
        exact hnmr (tid, info) hmem hty hmemrev
      · exact absurd hty hne
    · intro hmemrev
      have hnot := hnmr p hp hty
      rcases hrvs with hr | ⟨hr, hne⟩
      · rw [hr] at hmemrev
        exact hnot hmemrev
      · rw [hr] at hmemrev
        rcases List.mem_append.mp hmemrev with hh | hh
        · exact hnot hh
        · rcases List.mem_singleton.mp hh with heq
          have := handle_unique s hdist hp hmem heq
          rw [this] at hty
          exact hne hty
  · intro m hm
    obtain ⟨i, hg, ht⟩ := hmid m hm
    by_cases htid : tid = m
    · subst htid
      rw [hget] at hg
      injection hg with hg
      subst hg
      exact ⟨{ info with lastActivity := s.now }, alGet_alInsert_self _ _ _, ht⟩
    · exact ⟨i, by rw [alGet_alInsert_ne htid]; exact hg, ht⟩
  · intro c hc
    obtain ⟨i, hg, ht, hrev⟩ := hcid c hc
    by_cases htid : tid = c
    · subst htid
      rw [hget] at hg
      injection hg with hg
      subst hg
      exact ⟨{ info with lastActivity := s.now }, alGet_alInsert_self _ _ _, ht,
        hrvsub _ hrev⟩
    · exact ⟨i, by rw [alGet_alInsert_ne htid]; exact hg, ht, hrvsub _ hrev⟩

theorem dispatch_inv (s : Sys) (tid0 : Option String) (cmd : String) (ca ro : Bool)
    (hInv : Inv s) :
    Inv (match sendCommandToTerminal s tid0 cmd ca ro with
      | .ok r => r.2
      | .error _ => s) := by
  cases hres : sendCommandToTerminal s tid0 cmd ca ro with
  | error e => exact hInv
  | ok r =>
    obtain ⟨tid, info, _, hget, hdisp⟩ :=
      sendCommand_ok_inv s tid0 cmd ca ro r.1 r.2 (by rw [hres])
    rw [dispatchTo_of_get s tid cmd ro info hget, Except.ok.injEq, Prod.mk.injEq] at hdisp
    obtain ⟨_, hs⟩ := hdisp
    show Inv r.2
    rw [← hs]
    by_cases hm : (info.ttype == "mouse") = true
    · rw [if_pos hm]
      exact Inv_update_entry s hInv tid info hget _ _ _ _ (Or.inl rfl)
    · rw [if_neg hm]
      exact Inv_update_entry s hInv tid info hget _ _ _ _ (Or.inr ⟨rfl, by simpa using hm⟩)

theorem inv_stepOp (s : Sys) (o : Op) (h : Inv s) : Inv (stepOp s o) := by
  cases o with
  | opCreateRemote ty w => exact Inv_createRemote s h ty w
  | opCreateLocalCat w => exact Inv_createLocal s h "cat" w (by decide)
  | opEnsure => exact ensure_inv s h
  | opDispatch tid cmd ca ro => exact dispatch_inv s tid cmd ca ro h
  | opTick => exact h

theorem inv_runOps (s : Sys) (ops : List Op) (h : Inv s) : Inv (runOps s ops) := by
  induction ops generalizing s with
  | nil => exact h
  | cons o rest ih => exact ih (stepOp s o) (inv_stepOp s o h)

theorem Inv_initSys (env : List VTerm) (h0 : Nat) (hb : ∀ t ∈ env, t.handle < h0) :
    Inv (initSys env h0) := by
  refine ⟨⟨hb, ?_, ?_⟩, ?_, ?_, ?_, ?_, ?_⟩
  · intro p hp
    simp [initSys] at hp
  · intro h hh
    simp [initSys] at hh
  · exact List.Pairwise.nil
  · intro p hp
    simp [initSys] at hp
  · intro p hp
    simp [initSys] at hp
  · intro m hm
    simp [initSys] at hm
  · intro c hc
    simp [initSys] at hc

/-- Claim C1: along every trace of controller operations from the pristine
state, no `show()` call is ever issued against the handle the Primary (mouse)
channel id points at, while the handle the Secondary (cat) channel id points
at has received at least one `show()` call by the time it is tracked (in
particular after every completed `ensure()`). -/
theorem controller_visibility_invariant (env : List VTerm) (h0 : Nat)
    (hb : ∀ t ∈ env, t.handle < h0) (ops : List Op) :
    (∀ m i, (runOps (initSys env h0) ops).mouseTerminalId = some m →
        alGet m (runOps (initSys env h0) ops).managed = some i →
        i.handle ∉ (runOps (initSys env h0) ops).reveals)
    ∧ (∀ c i, (runOps (initSys env h0) ops).catTerminalId = some c →
        alGet c (runOps (initSys env h0) ops).managed = some i →
        i.handle ∈ (runOps (initSys env h0) ops).reveals) := by
  obtain ⟨_, hdist, _, hnmr, hmid, hcid⟩ := inv_runOps (initSys env h0) ops
    (Inv_initSys env h0 hb)
  constructor
  · intro m i hm hg
    obtain ⟨i', hg', ht'⟩ := hmid m hm
    rw [hg] at hg'
    injection hg' with hg'
    subst hg'
    exact hnmr (m, i) (alGet_mem hg) ht'
  · intro c i hc hg
    obtain ⟨i', hg', _, hr'⟩ := hcid c hc
    rw [hg] at hg'
    injection hg' with hg'
    subst hg'
    exact hr'

/-- Witness for C1: the trace consisting of a single `ensure()` from a clean
environment creates the Primary channel (id "1", handle 0, never revealed)
and the Secondary channel (id "2", handle 1, revealed). -/
theorem controller_visibility_invariant_witness :
    0 ∉ (runOps (initSys [] 0) [Op.opEnsure]).reveals
    ∧ 1 ∈ (runOps (initSys [] 0) [Op.opEnsure]).reveals := by
  have h := controller_visibility_invariant [] 0 (by simp) [Op.opEnsure]
  exact ⟨h.1 "1" (remoteInfo { initSys [] 0 with state := freshStateData } "mouse") rfl rfl,
    h.2 "2" _ rfl rfl⟩

end EvilAgent
